import Mathlib

/-!
# Brush renderer: geometry-to-draw-data compilation and its cache

A shallow embedding of `common/src/Renderer/BrushRenderer.cpp`.  The renderer is a
record of its member variables; every member function is a function on that record.
The visitor passes (`CountVertices`, `CollectVertices`, `CountIndices`,
`CollectIndices`) are records of their members, folded over the brush list the way
`Model::Node::accept(begin, end, visitor)` walks it.

Collaborator classes whose sources are not part of this unit (`Model::Brush`,
`Model::BrushFace`, `VertexArray`, `IndexArray`, `TexturedIndexArray`, `FaceRenderer`,
`EdgeRenderer`, `RenderBatch`) are modelled as plain data, each marked as such.
Counters of type `size_t` are natural numbers: a total that does not fit `size_t`
belongs to a buffer that cannot be allocated.
-/

namespace TrenchBroom

/-! ## Model collaborators -/

/-- Modelled from the spec: the material/texture handle of a face (`Assets::Texture*`),
used only as a key. -/
abbrev Texture := Nat

/-- Modelled from the spec: one vertex of a face polygon (`Model::BrushFace::Vertex`).
The renderer only copies vertices, so a vertex is an opaque token. -/
abbrev Vertex := Nat

/-- Modelled from the spec: an RGBA colour (`Color`), only stored and forwarded. -/
abbrev Color := Nat

/-- Modelled from the spec: the `float` transparency alpha, only stored and forwarded. -/
abbrev Alpha := Rat

/-- Modelled from the spec: `Model::BrushFace`.  `addr` is the identity of the object
(faces are handled by pointer), `brush` the identity of the owning brush,
`vertexCount` the result of `vertexCount()` and `cachedVertices` what
`getVertices(builder)` appends to the builder. -/
structure BrushFace where
  addr : Nat
  brush : Nat
  texture : Texture
  selected : Bool
  vertexCount : Nat
  cachedVertices : List Vertex
  deriving DecidableEq, Repr

/-- Modelled from the spec: `Model::Brush`, an ordered face list with selection state. -/
structure Brush where
  addr : Nat
  faces : List BrushFace
  selected : Bool
  parentSelected : Bool
  descendantSelected : Bool
  deriving DecidableEq, Repr

/-- Modelled from the spec: `Model::BrushEdge`, with the payloads of its two adjoining
faces. -/
structure BrushEdge where
  firstFace : BrushFace
  secondFace : BrushFace
  deriving DecidableEq, Repr

/-- Modelled from the spec: `Model::BrushList`. -/
abbrev BrushList := List Brush

/-- `Model::Node::accept(begin, end, visitor)`: the visitor visits every brush of the
range in order; `visit` is the visitor's `doVisit(const Model::Brush*)`. -/
def Node.accept {V : Type} (brushes : BrushList) (visit : V → Brush → V) (visitor : V) : V :=
  brushes.foldl visit visitor

/-! ## Render collaborators -/

/-- Modelled from the spec: the primitive kinds the renderer emits. -/
inductive PrimType where
  | PT_Polygons
  | PT_LineLoops
  deriving DecidableEq, Repr

/-- Modelled from the spec: `VertexArray`, the shared vertex store. -/
abbrev VertexArray := List Vertex

/-- Modelled from the spec: `VertexListBuilder`, created with a reserved capacity. -/
structure VertexListBuilder where
  capacity : Nat
  vertices : List Vertex
  deriving DecidableEq, Repr

/-- Modelled from the spec: `BrushFace::getVertices(builder)` appends the face's
vertices to the builder. -/
def BrushFace.getVertices (face : BrushFace) (builder : VertexListBuilder) : VertexListBuilder :=
  { builder with vertices := builder.vertices ++ face.cachedVertices }

/-- Modelled from the spec: one index run emitted by a face, a contiguous range of the
vertex store for one primitive.  The run records the primitive kind and the emitting
face. -/
structure IndexRun where
  primType : PrimType
  face : BrushFace
  deriving DecidableEq, Repr

/-- Modelled from the spec: `IndexArray::Size`, a counter per primitive kind. -/
abbrev IndexArray.Size := PrimType → Nat

/-- Modelled from the spec: `IndexArray::Size::inc(primType)`. -/
def IndexArray.Size.inc (size : IndexArray.Size) (primType : PrimType) : IndexArray.Size :=
  fun p => if p = primType then size p + 1 else size p

/-- Modelled from the spec: `TexturedIndexArray::Size`, a counter per material and
primitive kind. -/
abbrev TexturedIndexArray.Size := Texture → PrimType → Nat

/-- Modelled from the spec: `TexturedIndexArray::Size::inc(texture, primType)`. -/
def TexturedIndexArray.Size.inc (size : TexturedIndexArray.Size) (texture : Texture)
    (primType : PrimType) : TexturedIndexArray.Size :=
  fun t p => if t = texture ∧ p = primType then size t p + 1 else size t p

/-- Modelled from the spec: `IndexArray`, pre-sized from a `Size`, holding the runs
emitted into it in emission order. -/
structure IndexArray where
  size : IndexArray.Size
  runs : List IndexRun

/-- Modelled from the spec: `TexturedIndexArray`, pre-sized from a `Size`, holding the
runs emitted into it in emission order, each under its material. -/
structure TexturedIndexArray where
  size : TexturedIndexArray.Size
  runs : List (Texture × IndexRun)

/-- Default-constructed `IndexArray()`. -/
def IndexArray.empty : IndexArray := ⟨fun _ => 0, []⟩

/-- Default-constructed `TexturedIndexArray()`. -/
def TexturedIndexArray.empty : TexturedIndexArray := ⟨fun _ _ => 0, []⟩

/-- The runs of a textured index array filed under one material. -/
def TexturedIndexArray.runsOf (array : TexturedIndexArray) (texture : Texture) : List IndexRun :=
  (array.runs.filter (fun e => e.1 = texture)).map (fun e => e.2)

/-- Modelled from the spec: `BrushFace::getFaceIndex(array)` emits the face's polygon
run under the face's material. -/
def BrushFace.getFaceIndex (face : BrushFace) (array : TexturedIndexArray) : TexturedIndexArray :=
  { array with runs := array.runs ++ [(face.texture, ⟨PrimType.PT_Polygons, face⟩)] }

/-- Modelled from the spec: `BrushFace::getEdgeIndex(array)` emits the face's line-loop
run. -/
def BrushFace.getEdgeIndex (face : BrushFace) (array : IndexArray) : IndexArray :=
  { array with runs := array.runs ++ [⟨PrimType.PT_LineLoops, face⟩] }

/-! ## Filters -/

/-- `BrushRenderer::Filter`: the three virtual predicates. -/
structure Filter where
  doShowFace : BrushFace → Bool
  doShowEdge : BrushEdge → Bool
  doIsTransparent : Brush → Bool

/-- `Filter::show(const BrushFace*)`. -/
def Filter.show (filter : Filter) (face : BrushFace) : Bool := filter.doShowFace face

/-- `Filter::show(const BrushEdge*)`. -/
def Filter.showEdge (filter : Filter) (edge : BrushEdge) : Bool := filter.doShowEdge edge

/-- `Filter::transparent(const Brush*)`. -/
def Filter.transparent (filter : Filter) (brush : Brush) : Bool := filter.doIsTransparent brush

/-- `BrushRenderer::NoFilter`. -/
def NoFilter (transparent : Bool) : Filter where
  doShowFace := fun _ => true
  doShowEdge := fun _ => true
  doIsTransparent := fun _ => transparent

/-- `BrushRenderer::FilterWrapper`. -/
def FilterWrapper (filter : Filter) (showHiddenBrushes : Bool) : Filter where
  doShowFace := fun face => showHiddenBrushes || filter.show face
  doShowEdge := fun edge => showHiddenBrushes || filter.showEdge edge
  doIsTransparent := fun brush => filter.transparent brush

/-! ## The two vertex passes -/

/-- `BrushRenderer::CountVertices`. -/
structure CountVertices where
  m_filter : Filter
  m_vertexCount : Nat

/-- Constructor `CountVertices(filter)`. -/
def CountVertices.new (filter : Filter) : CountVertices := ⟨filter, 0⟩

/-- `CountVertices::vertexCount()`. -/
def CountVertices.vertexCount (v : CountVertices) : Nat := v.m_vertexCount

/-- `CountVertices::countFaceVertices(brush)`. -/
def CountVertices.countFaceVertices (v : CountVertices) (brush : Brush) : CountVertices :=
  brush.faces.foldl
    (fun v face =>
      if v.m_filter.show face then { v with m_vertexCount := v.m_vertexCount + face.vertexCount }
      else v)
    v

/-- `CountVertices::doVisit(const Model::Brush*)`. -/
def CountVertices.doVisit (v : CountVertices) (brush : Brush) : CountVertices :=
  v.countFaceVertices brush

/-- `BrushRenderer::CollectVertices`. -/
structure CollectVertices where
  m_filter : Filter
  m_builder : VertexListBuilder

/-- Constructor `CollectVertices(filter, faceVertexCount)`. -/
def CollectVertices.new (filter : Filter) (faceVertexCount : Nat) : CollectVertices :=
  ⟨filter, ⟨faceVertexCount, []⟩⟩

/-- `CollectVertices::vertexArray()`. -/
def CollectVertices.vertexArray (v : CollectVertices) : VertexArray := v.m_builder.vertices

/-- `CollectVertices::collectFaceVertices(brush)`. -/
def CollectVertices.collectFaceVertices (v : CollectVertices) (brush : Brush) : CollectVertices :=
  brush.faces.foldl
    (fun v face =>
      if v.m_filter.show face then { v with m_builder := face.getVertices v.m_builder }
      else v)
    v

/-- `CollectVertices::doVisit(const Model::Brush*)`. -/
def CollectVertices.doVisit (v : CollectVertices) (brush : Brush) : CollectVertices :=
  v.collectFaceVertices brush

/-! ## The two index passes -/

/-- `BrushRenderer::CountIndices`. -/
structure CountIndices where
  m_filter : Filter
  m_opaqueIndexSize : TexturedIndexArray.Size
  m_transparentIndexSize : TexturedIndexArray.Size
  m_edgeIndexSize : IndexArray.Size

/-- Constructor `CountIndices(filter)`: the three sizes are default-constructed. -/
def CountIndices.new (filter : Filter) : CountIndices :=
  ⟨filter, fun _ _ => 0, fun _ _ => 0, fun _ => 0⟩

/-- `CountIndices::countFaceIndices(brush)`. -/
def CountIndices.countFaceIndices (v : CountIndices) (brush : Brush) : CountIndices :=
  brush.faces.foldl
    (fun v face =>
      if v.m_filter.show face then
        let v :=
          if v.m_filter.transparent brush then
            { v with m_transparentIndexSize :=
                v.m_transparentIndexSize.inc face.texture PrimType.PT_Polygons }
          else
            { v with m_opaqueIndexSize :=
                v.m_opaqueIndexSize.inc face.texture PrimType.PT_Polygons }
        { v with m_edgeIndexSize := v.m_edgeIndexSize.inc PrimType.PT_LineLoops }
      else v)
    v

/-- `CountIndices::doVisit(const Model::Brush*)`. -/
def CountIndices.doVisit (v : CountIndices) (brush : Brush) : CountIndices :=
  v.countFaceIndices brush

/-- `BrushRenderer::CollectIndices`. -/
structure CollectIndices where
  m_filter : Filter
  m_opaqueFaceIndices : TexturedIndexArray
  m_transparentFaceIndices : TexturedIndexArray
  m_edgeIndices : IndexArray

/-- Constructor `CollectIndices(filter, indexSize)`: the three arrays are pre-sized from
the counted sizes. -/
def CollectIndices.new (filter : Filter) (indexSize : CountIndices) : CollectIndices :=
  ⟨filter, ⟨indexSize.m_opaqueIndexSize, []⟩, ⟨indexSize.m_transparentIndexSize, []⟩,
    ⟨indexSize.m_edgeIndexSize, []⟩⟩

/-- `CollectIndices::collectFaceIndices(brush)`. -/
def CollectIndices.collectFaceIndices (v : CollectIndices) (brush : Brush) : CollectIndices :=
  brush.faces.foldl
    (fun v face =>
      if v.m_filter.show face then
        let v :=
          if v.m_filter.transparent brush then
            { v with m_transparentFaceIndices := face.getFaceIndex v.m_transparentFaceIndices }
          else
            { v with m_opaqueFaceIndices := face.getFaceIndex v.m_opaqueFaceIndices }
        { v with m_edgeIndices := face.getEdgeIndex v.m_edgeIndices }
      else v)
    v

/-- `CollectIndices::doVisit(const Model::Brush*)`. -/
def CollectIndices.doVisit (v : CollectIndices) (brush : Brush) : CollectIndices :=
  v.collectFaceIndices brush

/-! ## Draw batches -/

/-- Modelled from the spec: `FaceRenderer`, a vertex store, a material-keyed index
bucket and the parameters the faces are drawn with. -/
structure FaceRenderer where
  m_vertexArray : VertexArray
  m_indexArray : TexturedIndexArray
  m_faceColor : Color
  m_grayscale : Bool
  m_tint : Bool
  m_tintColor : Color
  m_alpha : Alpha

/-- Default-constructed `FaceRenderer()`. -/
def FaceRenderer.empty : FaceRenderer := ⟨[], TexturedIndexArray.empty, 0, false, false, 0, 1⟩

/-- Constructor `FaceRenderer(vertexArray, indexArray, faceColor)`. -/
def FaceRenderer.new (vertexArray : VertexArray) (indexArray : TexturedIndexArray)
    (faceColor : Color) : FaceRenderer :=
  ⟨vertexArray, indexArray, faceColor, false, false, 0, 1⟩

/-- `FaceRenderer::setGrayscale`. -/
def FaceRenderer.setGrayscale (f : FaceRenderer) (grayscale : Bool) : FaceRenderer :=
  { f with m_grayscale := grayscale }

/-- `FaceRenderer::setTint`. -/
def FaceRenderer.setTint (f : FaceRenderer) (tint : Bool) : FaceRenderer :=
  { f with m_tint := tint }

/-- `FaceRenderer::setTintColor`. -/
def FaceRenderer.setTintColor (f : FaceRenderer) (tintColor : Color) : FaceRenderer :=
  { f with m_tintColor := tintColor }

/-- `FaceRenderer::setAlpha`. -/
def FaceRenderer.setAlpha (f : FaceRenderer) (alpha : Alpha) : FaceRenderer :=
  { f with m_alpha := alpha }

/-- Modelled from the spec: `EdgeRenderer`, a vertex store and the edge index bucket. -/
structure EdgeRenderer where
  m_vertexArray : VertexArray
  m_indexArray : IndexArray

/-- Default-constructed `EdgeRenderer()`. -/
def EdgeRenderer.empty : EdgeRenderer := ⟨[], IndexArray.empty⟩

/-- Modelled from the spec: `RenderEdges`, one edge draw batch over an edge renderer. -/
structure RenderEdges where
  m_edgeRenderer : EdgeRenderer
  m_renderOccluded : Bool
  m_color : Color

/-- Constructor `RenderEdges(edgeRenderer)`. -/
def RenderEdges.new (edgeRenderer : EdgeRenderer) : RenderEdges := ⟨edgeRenderer, false, 0⟩

/-- `RenderEdges::setRenderOccluded`. -/
def RenderEdges.setRenderOccluded (e : RenderEdges) : RenderEdges :=
  { e with m_renderOccluded := true }

/-- `RenderEdges::setColor`. -/
def RenderEdges.setColor (e : RenderEdges) (color : Color) : RenderEdges :=
  { e with m_color := color }

/-- Modelled from the spec: what a render batch collects, a face batch or an edge batch. -/
inductive Renderable where
  | faces (renderer : FaceRenderer)
  | edges (renderer : RenderEdges)

/-- Modelled from the spec: `RenderBatch`, the submitted batches in submission order. -/
abbrev RenderBatch := List Renderable

/-- `RenderBatch::addOneShot`. -/
def RenderBatch.addOneShot (renderBatch : RenderBatch) (renderable : Renderable) : RenderBatch :=
  renderBatch ++ [renderable]

/-- Modelled from the spec: `FaceRenderer::render(renderBatch)` submits the face batch with
the parameters it holds at that moment. -/
def FaceRenderer.render (f : FaceRenderer) (renderBatch : RenderBatch) : RenderBatch :=
  renderBatch.addOneShot (Renderable.faces f)

/-- Modelled from the spec: `RenderContext`, of which the renderer reads two flags. -/
structure RenderContext where
  showFaces : Bool
  showEdges : Bool
  deriving DecidableEq, Repr

/-! ## The renderer -/

/-- The member variables of `BrushRenderer`. -/
structure BrushRenderer where
  m_filter : Filter
  m_brushes : BrushList
  m_vertexArray : VertexArray
  m_opaqueFaceRenderer : FaceRenderer
  m_transparentFaceRenderer : FaceRenderer
  m_edgeRenderer : EdgeRenderer
  m_verticesValid : Bool
  m_indicesValid : Bool
  m_faceColor : Color
  m_showEdges : Bool
  m_edgeColor : Color
  m_grayscale : Bool
  m_tint : Bool
  m_tintColor : Color
  m_showOccludedEdges : Bool
  m_occludedEdgeColor : Color
  m_transparencyAlpha : Alpha
  m_showHiddenBrushes : Bool

namespace BrushRenderer

/-- Constructor `BrushRenderer(transparent)`; members missing from the initialiser list
are default-constructed. -/
def new (transparent : Bool) : BrushRenderer where
  m_filter := NoFilter transparent
  m_brushes := []
  m_vertexArray := []
  m_opaqueFaceRenderer := FaceRenderer.empty
  m_transparentFaceRenderer := FaceRenderer.empty
  m_edgeRenderer := EdgeRenderer.empty
  m_verticesValid := true
  m_indicesValid := true
  m_faceColor := 0
  m_showEdges := true
  m_edgeColor := 0
  m_grayscale := false
  m_tint := false
  m_tintColor := 0
  m_showOccludedEdges := false
  m_occludedEdgeColor := 0
  m_transparencyAlpha := 1
  m_showHiddenBrushes := false

/-- `BrushRenderer::invalidateIndices`. -/
def invalidateIndices (r : BrushRenderer) : BrushRenderer :=
  { r with m_indicesValid := false }

/-- `BrushRenderer::addBrushes`. -/
def addBrushes (r : BrushRenderer) (brushes : BrushList) : BrushRenderer :=
  invalidateIndices { r with m_brushes := r.m_brushes ++ brushes }

/-- `BrushRenderer::setBrushes`. -/
def setBrushes (r : BrushRenderer) (brushes : BrushList) : BrushRenderer :=
  invalidateIndices { r with m_brushes := brushes }

/-- `BrushRenderer::invalidateVertices`. -/
def invalidateVertices (r : BrushRenderer) : BrushRenderer :=
  let r := invalidateIndices r
  let r := { r with m_vertexArray := [] }
  { r with m_verticesValid := false }

/-- `BrushRenderer::clear`. -/
def clear (r : BrushRenderer) : BrushRenderer :=
  let r := { r with m_brushes := [] }
  let r := invalidateVertices r
  let r := { r with m_transparentFaceRenderer := FaceRenderer.empty }
  { r with m_opaqueFaceRenderer := FaceRenderer.empty }

/-- `BrushRenderer::setFaceColor`. -/
def setFaceColor (r : BrushRenderer) (faceColor : Color) : BrushRenderer :=
  { r with m_faceColor := faceColor }

/-- `BrushRenderer::setShowEdges`. -/
def setShowEdges (r : BrushRenderer) (showEdges : Bool) : BrushRenderer :=
  { r with m_showEdges := showEdges }

/-- `BrushRenderer::setEdgeColor`. -/
def setEdgeColor (r : BrushRenderer) (edgeColor : Color) : BrushRenderer :=
  { r with m_edgeColor := edgeColor }

/-- `BrushRenderer::setGrayscale`. -/
def setGrayscale (r : BrushRenderer) (grayscale : Bool) : BrushRenderer :=
  { r with m_grayscale := grayscale }

/-- `BrushRenderer::setTint`. -/
def setTint (r : BrushRenderer) (tint : Bool) : BrushRenderer :=
  { r with m_tint := tint }

/-- `BrushRenderer::setTintColor`. -/
def setTintColor (r : BrushRenderer) (tintColor : Color) : BrushRenderer :=
  { r with m_tintColor := tintColor }

/-- `BrushRenderer::setShowOccludedEdges`. -/
def setShowOccludedEdges (r : BrushRenderer) (showOccludedEdges : Bool) : BrushRenderer :=
  { r with m_showOccludedEdges := showOccludedEdges }

/-- `BrushRenderer::setOccludedEdgeColor`. -/
def setOccludedEdgeColor (r : BrushRenderer) (occludedEdgeColor : Color) : BrushRenderer :=
  { r with m_occludedEdgeColor := occludedEdgeColor }

/-- `BrushRenderer::setTransparencyAlpha`. -/
def setTransparencyAlpha (r : BrushRenderer) (transparencyAlpha : Alpha) : BrushRenderer :=
  { r with m_transparencyAlpha := transparencyAlpha }

/-- `BrushRenderer::setShowHiddenBrushes`. -/
def setShowHiddenBrushes (r : BrushRenderer) (showHiddenBrushes : Bool) : BrushRenderer :=
  if showHiddenBrushes = r.m_showHiddenBrushes then r
  else invalidateVertices { r with m_showHiddenBrushes := showHiddenBrushes }

/-- `BrushRenderer::validateVertices`. -/
def validateVertices (r : BrushRenderer) : BrushRenderer :=
  let wrapper := FilterWrapper r.m_filter r.m_showHiddenBrushes
  let countVertices := Node.accept r.m_brushes CountVertices.doVisit (CountVertices.new wrapper)
  let collectVertices :=
    Node.accept r.m_brushes CollectVertices.doVisit
      (CollectVertices.new wrapper countVertices.vertexCount)
  { r with m_vertexArray := collectVertices.vertexArray, m_verticesValid := true }

/-- `BrushRenderer::validateIndices`. -/
def validateIndices (r : BrushRenderer) : BrushRenderer :=
  let wrapper := FilterWrapper r.m_filter r.m_showHiddenBrushes
  let countIndices := Node.accept r.m_brushes CountIndices.doVisit (CountIndices.new wrapper)
  let collectIndices :=
    Node.accept r.m_brushes CollectIndices.doVisit (CollectIndices.new wrapper countIndices)
  { r with
    m_opaqueFaceRenderer :=
      FaceRenderer.new r.m_vertexArray collectIndices.m_opaqueFaceIndices r.m_faceColor
    m_transparentFaceRenderer :=
      FaceRenderer.new r.m_vertexArray collectIndices.m_transparentFaceIndices r.m_faceColor
    m_edgeRenderer := ⟨r.m_vertexArray, collectIndices.m_edgeIndices⟩
    m_indicesValid := true }

/-- `BrushRenderer::renderFaces`. -/
def renderFaces (r : BrushRenderer) (renderBatch : RenderBatch) : BrushRenderer × RenderBatch :=
  let faces₁ :=
    ((r.m_opaqueFaceRenderer.setGrayscale r.m_grayscale).setTint r.m_tint).setTintColor
      r.m_tintColor
  let renderBatch := faces₁.render renderBatch
  let faces₂ :=
    (((r.m_transparentFaceRenderer.setGrayscale r.m_grayscale).setTint r.m_tint).setTintColor
      r.m_tintColor).setAlpha r.m_transparencyAlpha
  let renderBatch := faces₂.render renderBatch
  ({ r with m_opaqueFaceRenderer := faces₁, m_transparentFaceRenderer := faces₂ }, renderBatch)

/-- `BrushRenderer::renderEdges`. -/
def renderEdges (r : BrushRenderer) (renderBatch : RenderBatch) : RenderBatch :=
  let renderBatch :=
    if r.m_showOccludedEdges then
      renderBatch.addOneShot
        (Renderable.edges
          (((RenderEdges.new r.m_edgeRenderer).setRenderOccluded).setColor r.m_occludedEdgeColor))
    else renderBatch
  renderBatch.addOneShot
    (Renderable.edges ((RenderEdges.new r.m_edgeRenderer).setColor r.m_edgeColor))

end BrushRenderer

/-- The two revalidations `render` can run. -/
inductive Validation where
  | vertices
  | indices
  deriving DecidableEq, Repr

/-- The outcome of one `render` call: the renderer afterwards, the render batch
afterwards, and which revalidations the call ran, in order. -/
structure RenderResult where
  renderer : BrushRenderer
  renderBatch : RenderBatch
  validated : List Validation

namespace BrushRenderer

/-- `BrushRenderer::render`.  The `validated` log records each call of
`validateVertices` and `validateIndices`. -/
def render (r : BrushRenderer) (renderContext : RenderContext) (renderBatch : RenderBatch) :
    RenderResult :=
  if r.m_brushes.isEmpty then ⟨r, renderBatch, []⟩
  else
    let s : RenderResult := ⟨r, renderBatch, []⟩
    let s :=
      if s.renderer.m_verticesValid then s
      else { s with renderer := s.renderer.validateVertices,
                    validated := s.validated ++ [Validation.vertices] }
    let s :=
      if s.renderer.m_indicesValid then s
      else { s with renderer := s.renderer.validateIndices,
                    validated := s.validated ++ [Validation.indices] }
    let s :=
      if renderContext.showFaces then
        { s with renderer := (s.renderer.renderFaces s.renderBatch).1,
                 renderBatch := (s.renderer.renderFaces s.renderBatch).2 }
      else s
    let s :=
      if renderContext.showEdges && s.renderer.m_showEdges then
        { s with renderBatch := s.renderer.renderEdges s.renderBatch }
      else s
    s

end BrushRenderer

/-! ## Call sequences -/

/-- The cosmetic setters of the renderer, each with its argument. -/
inductive Cosmetic where
  | setFaceColor (faceColor : Color)
  | setShowEdges (showEdges : Bool)
  | setEdgeColor (edgeColor : Color)
  | setGrayscale (grayscale : Bool)
  | setTint (tint : Bool)
  | setTintColor (tintColor : Color)
  | setShowOccludedEdges (showOccludedEdges : Bool)
  | setOccludedEdgeColor (occludedEdgeColor : Color)
  | setTransparencyAlpha (transparencyAlpha : Alpha)

/-- The call a cosmetic setter stands for. -/
def Cosmetic.apply (r : BrushRenderer) : Cosmetic → BrushRenderer
  | .setFaceColor c => r.setFaceColor c
  | .setShowEdges b => r.setShowEdges b
  | .setEdgeColor c => r.setEdgeColor c
  | .setGrayscale b => r.setGrayscale b
  | .setTint b => r.setTint b
  | .setTintColor c => r.setTintColor c
  | .setShowOccludedEdges b => r.setShowOccludedEdges b
  | .setOccludedEdgeColor c => r.setOccludedEdgeColor c
  | .setTransparencyAlpha a => r.setTransparencyAlpha a

/-- The mutators of the renderer, each with its argument. -/
inductive Mutator where
  | addBrushes (brushes : BrushList)
  | setBrushes (brushes : BrushList)
  | clear
  | setShowHiddenBrushes (showHiddenBrushes : Bool)
  | cosmetic (setter : Cosmetic)

/-- The call a mutator stands for. -/
def Mutator.apply (r : BrushRenderer) : Mutator → BrushRenderer
  | .addBrushes brushes => r.addBrushes brushes
  | .setBrushes brushes => r.setBrushes brushes
  | .clear => r.clear
  | .setShowHiddenBrushes b => r.setShowHiddenBrushes b
  | .cosmetic setter => setter.apply r

/-- The public operations of the renderer: a mutator call, or a `render` call with its
context and the render batch it is handed. -/
inductive Op where
  | mutate (m : Mutator)
  | render (renderContext : RenderContext) (renderBatch : RenderBatch)

/-- The renderer after one public operation. -/
def Op.apply (r : BrushRenderer) : Op → BrushRenderer
  | .mutate m => m.apply r
  | .render renderContext renderBatch => (r.render renderContext renderBatch).renderer

/-- The renderer after a sequence of public operations, applied left to right. -/
def BrushRenderer.run (r : BrushRenderer) (ops : List Op) : BrushRenderer :=
  ops.foldl Op.apply r

/-! ## The passes as `validateVertices` and `validateIndices` run them -/

/-- The count pass of `validateVertices` over a brush list, under a filter wrapped with
a show-hidden flag. -/
def countVerticesPass (brushes : BrushList) (filter : Filter) (showHiddenBrushes : Bool) :
    CountVertices :=
  Node.accept brushes CountVertices.doVisit
    (CountVertices.new (FilterWrapper filter showHiddenBrushes))

/-- The collect pass of `validateVertices`, its builder sized by the count pass. -/
def collectVerticesPass (brushes : BrushList) (filter : Filter) (showHiddenBrushes : Bool) :
    CollectVertices :=
  Node.accept brushes CollectVertices.doVisit
    (CollectVertices.new (FilterWrapper filter showHiddenBrushes)
      (countVerticesPass brushes filter showHiddenBrushes).vertexCount)

/-- The count pass of `validateIndices`. -/
def countIndicesPass (brushes : BrushList) (filter : Filter) (showHiddenBrushes : Bool) :
    CountIndices :=
  Node.accept brushes CountIndices.doVisit
    (CountIndices.new (FilterWrapper filter showHiddenBrushes))

/-- The collect pass of `validateIndices`, its arrays sized by the count pass. -/
def collectIndicesPass (brushes : BrushList) (filter : Filter) (showHiddenBrushes : Bool) :
    CollectIndices :=
  Node.accept brushes CollectIndices.doVisit
    (CollectIndices.new (FilterWrapper filter showHiddenBrushes)
      (countIndicesPass brushes filter showHiddenBrushes))

/-- The vertex store the vertex collect pass yields over the renderer's current brush
set, filter and show-hidden flag. -/
def BrushRenderer.collectedVertices (r : BrushRenderer) : VertexArray :=
  (collectVerticesPass r.m_brushes r.m_filter r.m_showHiddenBrushes).vertexArray

/-- The index collect pass run over the renderer's current brush set, filter and
show-hidden flag. -/
def BrushRenderer.collectedIndices (r : BrushRenderer) : CollectIndices :=
  collectIndicesPass r.m_brushes r.m_filter r.m_showHiddenBrushes

/-! ## Fixtures -/

/-- A four-vertex face with vertices `v, v+1, v+2, v+3`. -/
def quadFace (addr brush : Nat) (texture : Texture) (v : Vertex) : BrushFace :=
  ⟨addr, brush, texture, false, 4, [v, v + 1, v + 2, v + 3]⟩

/-- A cube: six four-vertex faces of one material. -/
def cubeBrush (addr : Nat) (texture : Texture) (v : Vertex) : Brush :=
  ⟨addr,
    [quadFace (addr + 1) addr texture v, quadFace (addr + 2) addr texture (v + 4),
      quadFace (addr + 3) addr texture (v + 8), quadFace (addr + 4) addr texture (v + 12),
      quadFace (addr + 5) addr texture (v + 16), quadFace (addr + 6) addr texture (v + 20)],
    false, false, false⟩

/-- A filter that hides the faces of one material and makes one brush transparent. -/
def fixtureFilter (hidden : Texture) (transparentBrush : Nat) : Filter where
  doShowFace := fun face => decide (face.texture ≠ hidden)
  doShowEdge := fun _ => true
  doIsTransparent := fun brush => decide (brush.addr = transparentBrush)

/-- A brush with one face of material 7 and one of material 9, two and three vertices. -/
def wedgeBrush : Brush :=
  ⟨100, [⟨101, 100, 7, false, 2, [50, 51]⟩, ⟨102, 100, 9, false, 3, [52, 53, 54]⟩],
    false, false, false⟩

/-- The faces of a brush list that a filter shows, in traversal order: brush order,
then face order. -/
def shownFaces (filter : Filter) (brushes : BrushList) : List BrushFace :=
  (brushes.map (fun brush => brush.faces.filter filter.show)).flatten

/-- A count pass and a collect pass agree: they hold the same filter, every material's
polygon count in either face accumulator is the number of runs filed under that material
in the matching bucket, the line-loop count is the number of runs in the edge bucket,
and every run is of the kind its bucket is counted by. -/
def IndexAgree (c : CountIndices) (k : CollectIndices) : Prop :=
  c.m_filter = k.m_filter ∧
  (∀ t, c.m_opaqueIndexSize t PrimType.PT_Polygons = (k.m_opaqueFaceIndices.runsOf t).length) ∧
  (∀ t, c.m_transparentIndexSize t PrimType.PT_Polygons =
      (k.m_transparentFaceIndices.runsOf t).length) ∧
  c.m_edgeIndexSize PrimType.PT_LineLoops = k.m_edgeIndices.runs.length ∧
  (∀ e ∈ k.m_opaqueFaceIndices.runs, e.2.primType = PrimType.PT_Polygons) ∧
  (∀ e ∈ k.m_transparentFaceIndices.runs, e.2.primType = PrimType.PT_Polygons) ∧
  (∀ e ∈ k.m_edgeIndices.runs, e.primType = PrimType.PT_LineLoops)

/-- The index buckets of the renderer are current: when the index data is marked valid,
the three buckets are the result of the index collect pass over the current brush set,
filter and show-hidden flag. -/
def IndicesCurrent (r : BrushRenderer) : Prop :=
  r.m_indicesValid = true →
    r.m_opaqueFaceRenderer.m_indexArray = r.collectedIndices.m_opaqueFaceIndices ∧
    r.m_transparentFaceRenderer.m_indexArray = r.collectedIndices.m_transparentFaceIndices ∧
    r.m_edgeRenderer.m_indexArray = r.collectedIndices.m_edgeIndices

/-- The mutator calls that change what is compiled: `addBrushes`, `setBrushes`, `clear`,
and `setShowHiddenBrushes` with a value other than the current one. -/
def Mutator.changesScene (r : BrushRenderer) : Mutator → Bool
  | .addBrushes _ => true
  | .setBrushes _ => true
  | .clear => true
  | .setShowHiddenBrushes b => b != r.m_showHiddenBrushes
  | .cosmetic _ => false

/-- The face colour a submitted batch is drawn with, for a face batch. -/
def Renderable.faceColor? : Renderable → Option Color
  | .faces renderer => some renderer.m_faceColor
  | .edges _ => none

/-- The tint colour a submitted batch is drawn with, for a face batch. -/
def Renderable.tintColor? : Renderable → Option Color
  | .faces renderer => some renderer.m_tintColor
  | .edges _ => none

/-! ## The default filter -/

/-- Modelled from the spec: the brush objects of the map by identity; it resolves the
back-reference `face->brush()`. -/
abbrev BrushStore := Nat → Brush

/-- Modelled from the spec: `BrushFace::brush()`, the owning brush of a face. -/
def BrushFace.owner (store : BrushStore) (face : BrushFace) : Brush := store face.brush

/-- Modelled from the spec: `Model::EditorContext`, the editor's visibility and
editability state, queried per brush and per face. -/
structure EditorContext where
  visibleBrush : Brush → Bool
  editableBrush : Brush → Bool
  editableFace : BrushFace → Bool

/-- Modelled from the spec: `EditorContext::visible(const Model::BrushFace*)`, which is not
part of this unit.  A face is visible exactly when its owning brush is. -/
def EditorContext.visibleFace (context : EditorContext) (store : BrushStore)
    (face : BrushFace) : Bool :=
  context.visibleBrush (face.owner store)

/-- `BrushRenderer::DefaultFilter`. -/
structure DefaultFilter where
  m_context : EditorContext

/-- `DefaultFilter::visible(const Model::Brush*)`. -/
def DefaultFilter.visibleBrush (filter : DefaultFilter) (brush : Brush) : Bool :=
  filter.m_context.visibleBrush brush

/-- `DefaultFilter::visible(const Model::BrushFace*)`. -/
def DefaultFilter.visibleFace (filter : DefaultFilter) (store : BrushStore)
    (face : BrushFace) : Bool :=
  filter.m_context.visibleFace store face

/-- `DefaultFilter::visible(const Model::BrushEdge*)`. -/
def DefaultFilter.visibleEdge (filter : DefaultFilter) (store : BrushStore)
    (edge : BrushEdge) : Bool :=
  filter.m_context.visibleFace store edge.firstFace ||
    filter.m_context.visibleFace store edge.secondFace

/-- `DefaultFilter::editable(const Model::Brush*)`. -/
def DefaultFilter.editableBrush (filter : DefaultFilter) (brush : Brush) : Bool :=
  filter.m_context.editableBrush brush

/-- `DefaultFilter::editable(const Model::BrushFace*)`. -/
def DefaultFilter.editableFace (filter : DefaultFilter) (face : BrushFace) : Bool :=
  filter.m_context.editableFace face

/-- `DefaultFilter::selected(const Model::Brush*)`. -/
def DefaultFilter.selectedBrush (_filter : DefaultFilter) (brush : Brush) : Bool :=
  brush.selected || brush.parentSelected

/-- `DefaultFilter::selected(const Model::BrushFace*)`. -/
def DefaultFilter.selectedFace (_filter : DefaultFilter) (face : BrushFace) : Bool :=
  face.selected

/-- `DefaultFilter::selected(const Model::BrushEdge*)`.  The result is `none` when the
assertion `second->brush() == brush` fails. -/
def DefaultFilter.selectedEdge (filter : DefaultFilter) (store : BrushStore)
    (edge : BrushEdge) : Option Bool :=
  let first := edge.firstFace
  let second := edge.secondFace
  let brush := first.brush
  if second.brush = brush then
    some (filter.selectedBrush (store brush) || filter.selectedFace first ||
      filter.selectedFace second)
  else none

/-- `DefaultFilter::hasSelectedFaces(const Model::Brush*)`. -/
def DefaultFilter.hasSelectedFaces (_filter : DefaultFilter) (brush : Brush) : Bool :=
  brush.descendantSelected

/-! ## More fixtures and closed forms -/

/-- Modelled from the spec: a renderer constructed over a given filter.  The
filter-taking constructor of `BrushRenderer.h` is not part of this unit; the other members
are initialised as by `BrushRenderer(bool)`. -/
def BrushRenderer.newWithFilter (filter : Filter) : BrushRenderer :=
  { BrushRenderer.new false with m_filter := filter }

/-- The entry `getFaceIndex` files for a face: its polygon run under its material. -/
def BrushFace.polygonEntry (face : BrushFace) : Texture × IndexRun :=
  (face.texture, ⟨PrimType.PT_Polygons, face⟩)

/-- The run `getEdgeIndex` emits for a face: its line loop. -/
def BrushFace.lineLoopRun (face : BrushFace) : IndexRun :=
  ⟨PrimType.PT_LineLoops, face⟩

/-- The vertex sequence in the spec's words: over the brushes in list order and over each
brush's faces in face-list order, the vertices of exactly those faces the filter shows,
concatenated. -/
def concatShownVertices (filter : Filter) (brushes : BrushList) : List Vertex :=
  brushes.flatMap (fun brush =>
    (brush.faces.filter (fun face => filter.show face)).flatMap (fun face => face.cachedVertices))

/-- The brushes of a list that a filter makes transparent (`true`) or leaves
non-transparent (`false`), in list order. -/
def brushesOfKind (filter : Filter) (transparent : Bool) (brushes : BrushList) : BrushList :=
  brushes.filter (fun brush => filter.transparent brush == transparent)

/-- The store of the fixture brushes: the wedge at 100, a cube at every other address. -/
def fixtureStore : BrushStore :=
  fun addr => if addr = 100 then wedgeBrush else cubeBrush addr 7 0

/-- An edge between the two faces of the wedge, the second of them selected. -/
def wedgeEdge : BrushEdge :=
  ⟨⟨101, 100, 7, false, 2, [50, 51]⟩, ⟨102, 100, 9, true, 3, [52, 53, 54]⟩⟩

/-- A context in which exactly the brush at address 100 is visible. -/
def fixtureContext : EditorContext where
  visibleBrush := fun brush => decide (brush.addr = 100)
  editableBrush := fun _ => true
  editableFace := fun _ => true

/-- A renderer holding the wedge, with occluded edges switched on and distinct colours. -/
def fixtureRenderer : BrushRenderer :=
  (BrushRenderer.new false).run
    [Op.mutate (Mutator.addBrushes [wedgeBrush]),
      Op.mutate (Mutator.cosmetic (Cosmetic.setShowOccludedEdges true)),
      Op.mutate (Mutator.cosmetic (Cosmetic.setEdgeColor 2)),
      Op.mutate (Mutator.cosmetic (Cosmetic.setOccludedEdgeColor 3))]

/-! ## Face sequences and totals -/

/-- All faces of a brush list in traversal order: brush order, then face order. -/
def allFaces (brushes : BrushList) : List BrushFace :=
  brushes.flatMap (fun brush => brush.faces)

/-- The faces whose runs an index array holds, in emission order. -/
def IndexArray.faces (array : IndexArray) : List BrushFace :=
  array.runs.map (fun run => run.face)

/-- `CollectVertices::collectFaceVertices(brush)` with a log: next to the visitor it keeps
the faces whose `getVertices` it has called, in call order. -/
def CollectVertices.collectFaceVerticesLogged (s : CollectVertices × List BrushFace)
    (brush : Brush) : CollectVertices × List BrushFace :=
  brush.faces.foldl
    (fun s face =>
      if s.1.m_filter.show face then
        ({ s.1 with m_builder := face.getVertices s.1.m_builder }, s.2 ++ [face])
      else s)
    s

/-- The collect pass of `validateVertices` with the log of the faces it appends. -/
def collectVerticesPassLogged (brushes : BrushList) (filter : Filter)
    (showHiddenBrushes : Bool) : CollectVertices × List BrushFace :=
  Node.accept brushes CollectVertices.collectFaceVerticesLogged
    (CollectVertices.new (FilterWrapper filter showHiddenBrushes)
      (countVerticesPass brushes filter showHiddenBrushes).vertexCount, [])

/-- The total over a set of materials of the polygon sizes a `TexturedIndexArray::Size`
records. -/
def TexturedIndexArray.Size.total (size : TexturedIndexArray.Size) (materials : Finset Texture) :
    Nat :=
  materials.sum (fun material => size material PrimType.PT_Polygons)

/-- A renderer whose brush set has been emptied by `setBrushes` after a render: the
buffers still hold what was compiled from the wedge, and the index data is invalid. -/
def staleRenderer : BrushRenderer :=
  (BrushRenderer.new false).run
    [Op.mutate (Mutator.addBrushes [wedgeBrush]), Op.render ⟨true, true⟩ [],
      Op.mutate (Mutator.setBrushes [])]

/-! ## The vertex passes in closed form -/

theorem CountVertices.countFaceVertices_eq (v : CountVertices) (brush : Brush) :
    v.countFaceVertices brush =
      ⟨v.m_filter,
        v.m_vertexCount + ((brush.faces.filter v.m_filter.show).map BrushFace.vertexCount).sum⟩ := by
  unfold CountVertices.countFaceVertices
  generalize brush.faces = faces
  induction faces generalizing v with
  | nil => simp
  | cons face rest ih =>
    rw [List.foldl_cons, ih]
    by_cases h : v.m_filter.show face <;> simp [h, List.filter_cons, Nat.add_assoc]

theorem CountVertices.count_accept_eq (v : CountVertices) (brushes : BrushList) :
    Node.accept brushes CountVertices.doVisit v =
      ⟨v.m_filter,
        v.m_vertexCount + ((shownFaces v.m_filter brushes).map BrushFace.vertexCount).sum⟩ := by
  unfold Node.accept
  induction brushes generalizing v with
  | nil => simp [shownFaces]
  | cons brush rest ih =>
    rw [List.foldl_cons, ih]
    simp [CountVertices.doVisit, CountVertices.countFaceVertices_eq, shownFaces, Nat.add_assoc]

theorem CollectVertices.collectFaceVertices_eq (v : CollectVertices) (brush : Brush) :
    v.collectFaceVertices brush =
      ⟨v.m_filter, v.m_builder.capacity,
        v.m_builder.vertices ++
          ((brush.faces.filter v.m_filter.show).map BrushFace.cachedVertices).flatten⟩ := by
  unfold CollectVertices.collectFaceVertices
  generalize brush.faces = faces
  induction faces generalizing v with
  | nil => simp
  | cons face rest ih =>
    rw [List.foldl_cons, ih]
    by_cases h : v.m_filter.show face <;> simp [h, List.filter_cons, BrushFace.getVertices]

theorem CollectVertices.collect_accept_eq (v : CollectVertices) (brushes : BrushList) :
    Node.accept brushes CollectVertices.doVisit v =
      ⟨v.m_filter, v.m_builder.capacity,
        v.m_builder.vertices ++
          ((shownFaces v.m_filter brushes).map BrushFace.cachedVertices).flatten⟩ := by
  unfold Node.accept
  induction brushes generalizing v with
  | nil => simp [shownFaces]
  | cons brush rest ih =>
    rw [List.foldl_cons, ih]
    simp [CollectVertices.doVisit, CollectVertices.collectFaceVertices_eq, shownFaces]

theorem length_flatten_cachedVertices (faces : List BrushFace)
    (h : ∀ face ∈ faces, face.cachedVertices.length = face.vertexCount) :
    ((faces.map BrushFace.cachedVertices).flatten).length =
      (faces.map BrushFace.vertexCount).sum := by
  induction faces with
  | nil => simp
  | cons face rest ih =>
    have h₁ := h face (List.mem_cons_self _ _)
    have h₂ := ih (fun f hf => h f (List.mem_cons_of_mem _ hf))
    simp [h₁, h₂]

theorem mem_shownFaces {filter : Filter} {brushes : BrushList} {face : BrushFace} :
    face ∈ shownFaces filter brushes ↔
      ∃ brush ∈ brushes, face ∈ brush.faces ∧ filter.show face = true := by
  simp [shownFaces, List.mem_filter]

/-! ## The index passes agree -/

theorem TexturedIndexArray.Size.inc_apply (size : TexturedIndexArray.Size) (texture t : Texture) :
    size.inc texture PrimType.PT_Polygons t PrimType.PT_Polygons =
      size t PrimType.PT_Polygons + (if texture = t then 1 else 0) := by
  by_cases e : texture = t
  · simp [TexturedIndexArray.Size.inc, e]
  · have e2 : ¬ t = texture := fun h => e h.symm
    simp [TexturedIndexArray.Size.inc, e, e2]

theorem BrushFace.getFaceIndex_runs (face : BrushFace) (array : TexturedIndexArray) :
    (face.getFaceIndex array).runs =
      array.runs ++ [(face.texture, ⟨PrimType.PT_Polygons, face⟩)] := rfl

theorem BrushFace.getEdgeIndex_runs (face : BrushFace) (array : IndexArray) :
    (face.getEdgeIndex array).runs = array.runs ++ [⟨PrimType.PT_LineLoops, face⟩] := rfl

theorem BrushFace.getFaceIndex_runsOf_length (face : BrushFace) (array : TexturedIndexArray)
    (t : Texture) :
    ((face.getFaceIndex array).runsOf t).length =
      (array.runsOf t).length + (if face.texture = t then 1 else 0) := by
  by_cases e : face.texture = t <;>
    simp [TexturedIndexArray.runsOf, BrushFace.getFaceIndex_runs, List.filter_append, e]

theorem IndexAgree.faces (brush : Brush) (faces : List BrushFace) (c : CountIndices)
    (k : CollectIndices) (h : IndexAgree c k) :
    IndexAgree
      (faces.foldl
        (fun v face =>
          if v.m_filter.show face then
            let v :=
              if v.m_filter.transparent brush then
                { v with m_transparentIndexSize :=
                    v.m_transparentIndexSize.inc face.texture PrimType.PT_Polygons }
              else
                { v with m_opaqueIndexSize :=
                    v.m_opaqueIndexSize.inc face.texture PrimType.PT_Polygons }
            { v with m_edgeIndexSize := v.m_edgeIndexSize.inc PrimType.PT_LineLoops }
          else v)
        c)
      (faces.foldl
        (fun v face =>
          if v.m_filter.show face then
            let v :=
              if v.m_filter.transparent brush then
                { v with m_transparentFaceIndices := face.getFaceIndex v.m_transparentFaceIndices }
              else
                { v with m_opaqueFaceIndices := face.getFaceIndex v.m_opaqueFaceIndices }
            { v with m_edgeIndices := face.getEdgeIndex v.m_edgeIndices }
          else v)
        k) := by
  induction faces generalizing c k with
  | nil => simpa using h
  | cons face rest ih =>
    rw [List.foldl_cons, List.foldl_cons]
    apply ih
    obtain ⟨hf, ho, ht, he, po, pt, pe⟩ := h
    have memFace : ∀ (a : TexturedIndexArray),
        (∀ e ∈ a.runs, e.2.primType = PrimType.PT_Polygons) →
        ∀ e ∈ (face.getFaceIndex a).runs, e.2.primType = PrimType.PT_Polygons := by
      intro a ha e he'
      rw [BrushFace.getFaceIndex_runs, List.mem_append, List.mem_singleton] at he'
      rcases he' with he' | he'
      · exact ha e he'
      · rw [he']
    have memEdge : ∀ e ∈ (face.getEdgeIndex k.m_edgeIndices).runs,
        e.primType = PrimType.PT_LineLoops := by
      intro e he'
      rw [BrushFace.getEdgeIndex_runs, List.mem_append, List.mem_singleton] at he'
      rcases he' with he' | he'
      · exact pe e he'
      · rw [he']
    have edgeLen : c.m_edgeIndexSize.inc PrimType.PT_LineLoops PrimType.PT_LineLoops =
        (face.getEdgeIndex k.m_edgeIndices).runs.length := by
      simp [IndexArray.Size.inc, BrushFace.getEdgeIndex_runs, he]
    rw [← hf]
    by_cases hs : c.m_filter.show face = true
    · by_cases htr : c.m_filter.transparent brush = true
      · rw [if_pos hs, if_pos hs]
        simp only [if_pos htr]
        refine ⟨rfl, ho, ?_, edgeLen, po, memFace _ pt, memEdge⟩
        intro t
        show c.m_transparentIndexSize.inc face.texture PrimType.PT_Polygons t PrimType.PT_Polygons =
          ((face.getFaceIndex k.m_transparentFaceIndices).runsOf t).length
        rw [TexturedIndexArray.Size.inc_apply, BrushFace.getFaceIndex_runsOf_length, ht t]
      · rw [if_pos hs, if_pos hs]
        simp only [if_neg htr]
        refine ⟨rfl, ?_, ht, edgeLen, memFace _ po, pt, memEdge⟩
        intro t
        show c.m_opaqueIndexSize.inc face.texture PrimType.PT_Polygons t PrimType.PT_Polygons =
          ((face.getFaceIndex k.m_opaqueFaceIndices).runsOf t).length
        rw [TexturedIndexArray.Size.inc_apply, BrushFace.getFaceIndex_runsOf_length, ho t]
    · rw [if_neg hs, if_neg hs]
      exact ⟨hf, ho, ht, he, po, pt, pe⟩

theorem IndexAgree.accept (brushes : BrushList) (c : CountIndices) (k : CollectIndices)
    (h : IndexAgree c k) :
    IndexAgree (Node.accept brushes CountIndices.doVisit c)
      (Node.accept brushes CollectIndices.doVisit k) := by
  unfold Node.accept
  induction brushes generalizing c k with
  | nil => simpa using h
  | cons brush rest ih =>
    rw [List.foldl_cons, List.foldl_cons]
    exact ih _ _ (IndexAgree.faces brush brush.faces c k h)

theorem IndexAgree.of_new (filter : Filter) (size : CountIndices) :
    IndexAgree (CountIndices.new filter) (CollectIndices.new filter size) := by
  simp [IndexAgree, CountIndices.new, CollectIndices.new, TexturedIndexArray.runsOf]

/-! ## Count and collect agree -/

/-- C3: over one brush list and one filter (wrapped with either show-hidden flag), when
every face emits exactly `vertexCount()` vertices, the vertex collect pass appends exactly
as many vertices as the count pass counted, so the builder reserved from the count is
filled exactly. -/
theorem C3_count_vertices_eq_collected (brushes : BrushList) (filter : Filter)
    (showHiddenBrushes : Bool)
    (h : ∀ brush ∈ brushes, ∀ face ∈ brush.faces,
      face.cachedVertices.length = face.vertexCount) :
    (collectVerticesPass brushes filter showHiddenBrushes).vertexArray.length =
        (countVerticesPass brushes filter showHiddenBrushes).vertexCount ∧
      (collectVerticesPass brushes filter showHiddenBrushes).m_builder.vertices.length =
        (collectVerticesPass brushes filter showHiddenBrushes).m_builder.capacity := by
  have key : (((shownFaces (FilterWrapper filter showHiddenBrushes) brushes).map
      BrushFace.cachedVertices).flatten).length =
      ((shownFaces (FilterWrapper filter showHiddenBrushes) brushes).map
        BrushFace.vertexCount).sum := by
    apply length_flatten_cachedVertices
    intro face hface
    obtain ⟨brush, hb, hf, _⟩ := mem_shownFaces.mp hface
    exact h brush hb face hf
  simp only [collectVerticesPass, countVerticesPass, CollectVertices.collect_accept_eq,
    CountVertices.count_accept_eq, CollectVertices.vertexArray, CountVertices.vertexCount,
    CollectVertices.new, CountVertices.new, List.nil_append, Nat.zero_add, key, and_self]

/-- C3 at a concrete scene: a cube and a wedge, the wedge's material-9 face hidden. -/
theorem C3_count_vertices_eq_collected_witness :
    (collectVerticesPass [cubeBrush 10 7 0, wedgeBrush] (fixtureFilter 9 0) false).vertexArray.length =
        (countVerticesPass [cubeBrush 10 7 0, wedgeBrush] (fixtureFilter 9 0) false).vertexCount ∧
      (collectVerticesPass [cubeBrush 10 7 0, wedgeBrush] (fixtureFilter 9 0)
          false).m_builder.vertices.length =
        (collectVerticesPass [cubeBrush 10 7 0, wedgeBrush] (fixtureFilter 9 0)
          false).m_builder.capacity :=
  C3_count_vertices_eq_collected [cubeBrush 10 7 0, wedgeBrush] (fixtureFilter 9 0) false
    (by decide)

/-- C4: over one brush list and one filter, for every material the polygon size counted
in the opaque (transparent) accumulator is the number of runs the collect pass files under
that material in the opaque (transparent) bucket, all of them polygon runs, and the counted
line-loop size is the number of runs in the edge bucket, all of them line loops. -/
theorem C4_count_indices_eq_collected (brushes : BrushList) (filter : Filter)
    (showHiddenBrushes : Bool) :
    (∀ material : Texture,
      (countIndicesPass brushes filter showHiddenBrushes).m_opaqueIndexSize material
          PrimType.PT_Polygons =
        ((collectIndicesPass brushes filter showHiddenBrushes).m_opaqueFaceIndices.runsOf
          material).length) ∧
    (∀ material : Texture,
      (countIndicesPass brushes filter showHiddenBrushes).m_transparentIndexSize material
          PrimType.PT_Polygons =
        ((collectIndicesPass brushes filter showHiddenBrushes).m_transparentFaceIndices.runsOf
          material).length) ∧
    (countIndicesPass brushes filter showHiddenBrushes).m_edgeIndexSize PrimType.PT_LineLoops =
      (collectIndicesPass brushes filter showHiddenBrushes).m_edgeIndices.runs.length ∧
    (∀ e ∈ (collectIndicesPass brushes filter showHiddenBrushes).m_opaqueFaceIndices.runs,
      e.2.primType = PrimType.PT_Polygons) ∧
    (∀ e ∈ (collectIndicesPass brushes filter showHiddenBrushes).m_transparentFaceIndices.runs,
      e.2.primType = PrimType.PT_Polygons) ∧
    (∀ e ∈ (collectIndicesPass brushes filter showHiddenBrushes).m_edgeIndices.runs,
      e.primType = PrimType.PT_LineLoops) :=
  (IndexAgree.accept brushes _ _
    (IndexAgree.of_new (FilterWrapper filter showHiddenBrushes)
      (countIndicesPass brushes filter showHiddenBrushes))).2

/-! ## What `render` leaves alone -/

theorem BrushRenderer.render_frame (r : BrushRenderer) (ctx : RenderContext)
    (batch : RenderBatch) :
    (r.render ctx batch).renderer.m_brushes = r.m_brushes ∧
    (r.render ctx batch).renderer.m_filter = r.m_filter ∧
    (r.render ctx batch).renderer.m_showHiddenBrushes = r.m_showHiddenBrushes := by
  unfold BrushRenderer.render
  dsimp only
  split_ifs <;>
    simp [BrushRenderer.validateVertices, BrushRenderer.validateIndices,
      BrushRenderer.renderFaces]

theorem BrushRenderer.render_collectedIndices (r : BrushRenderer) (ctx : RenderContext)
    (batch : RenderBatch) :
    (r.render ctx batch).renderer.collectedIndices = r.collectedIndices := by
  obtain ⟨h₁, h₂, h₃⟩ := r.render_frame ctx batch
  simp only [BrushRenderer.collectedIndices, h₁, h₂, h₃]

theorem BrushRenderer.render_empty (r : BrushRenderer) (ctx : RenderContext)
    (batch : RenderBatch) (h : r.m_brushes = []) :
    r.render ctx batch = ⟨r, batch, []⟩ := by
  simp [BrushRenderer.render, h]

theorem BrushRenderer.isEmpty_eq_false (r : BrushRenderer) (h : r.m_brushes ≠ []) :
    r.m_brushes.isEmpty = false := by
  cases hbr : r.m_brushes with
  | nil => exact absurd hbr h
  | cons _ _ => rfl

theorem BrushRenderer.render_valid (r : BrushRenderer) (ctx : RenderContext)
    (batch : RenderBatch) (h : r.m_brushes ≠ []) :
    (r.render ctx batch).renderer.m_verticesValid = true ∧
    (r.render ctx batch).renderer.m_indicesValid = true := by
  unfold BrushRenderer.render
  dsimp only
  rw [r.isEmpty_eq_false h]
  split_ifs <;>
    simp_all [BrushRenderer.validateVertices, BrushRenderer.validateIndices,
      BrushRenderer.renderFaces]

/-! ## The index buckets stay current -/

theorem IndicesCurrent.of_fresh (transparent : Bool) :
    IndicesCurrent (BrushRenderer.new transparent) :=
  fun _ => ⟨rfl, rfl, rfl⟩

theorem IndicesCurrent.mutate (r : BrushRenderer) (m : Mutator) (h : IndicesCurrent r) :
    IndicesCurrent (m.apply r) := by
  cases m with
  | addBrushes brushes => intro hv; simp [Mutator.apply, BrushRenderer.addBrushes,
      BrushRenderer.invalidateIndices] at hv
  | setBrushes brushes => intro hv; simp [Mutator.apply, BrushRenderer.setBrushes,
      BrushRenderer.invalidateIndices] at hv
  | clear => intro hv; simp [Mutator.apply, BrushRenderer.clear,
      BrushRenderer.invalidateVertices, BrushRenderer.invalidateIndices] at hv
  | setShowHiddenBrushes b =>
    by_cases e : b = r.m_showHiddenBrushes
    · simpa [Mutator.apply, BrushRenderer.setShowHiddenBrushes, e] using h
    · intro hv
      simp [Mutator.apply, BrushRenderer.setShowHiddenBrushes, e,
        BrushRenderer.invalidateVertices, BrushRenderer.invalidateIndices] at hv
  | cosmetic setter => cases setter <;> exact h

theorem IndicesCurrent.render (r : BrushRenderer) (ctx : RenderContext) (batch : RenderBatch)
    (h : IndicesCurrent r) : IndicesCurrent (r.render ctx batch).renderer := by
  by_cases hb : r.m_brushes = []
  · rw [BrushRenderer.render_empty r ctx batch hb]
    exact h
  · intro _
    rw [BrushRenderer.render_collectedIndices]
    unfold IndicesCurrent at h
    unfold BrushRenderer.render
    dsimp only
    rw [r.isEmpty_eq_false hb]
    split_ifs <;>
      simp_all [BrushRenderer.validateVertices, BrushRenderer.validateIndices,
        BrushRenderer.renderFaces, BrushRenderer.collectedIndices, collectIndicesPass,
        countIndicesPass, FaceRenderer.new, FaceRenderer.setGrayscale, FaceRenderer.setTint,
        FaceRenderer.setTintColor, FaceRenderer.setAlpha]

theorem IndicesCurrent.run (ops : List Op) (r : BrushRenderer) (h : IndicesCurrent r) :
    IndicesCurrent (r.run ops) := by
  unfold BrushRenderer.run
  induction ops generalizing r with
  | nil => exact h
  | cons op rest ih =>
    rw [List.foldl_cons]
    apply ih
    cases op with
    | mutate m => exact IndicesCurrent.mutate r m h
    | render ctx batch => exact IndicesCurrent.render r ctx batch h

/-! ## Which revalidations `render` runs -/

theorem BrushRenderer.render_validated (r : BrushRenderer) (ctx : RenderContext)
    (batch : RenderBatch) :
    (r.render ctx batch).validated =
      if r.m_brushes.isEmpty then []
      else (if r.m_verticesValid then [] else [Validation.vertices]) ++
        (if r.m_indicesValid then [] else [Validation.indices]) := by
  unfold BrushRenderer.render
  dsimp only
  split_ifs <;>
    simp_all [BrushRenderer.validateVertices, BrushRenderer.validateIndices,
      BrushRenderer.renderFaces]

theorem BrushRenderer.render_cached (r : BrushRenderer) (ctx : RenderContext)
    (batch : RenderBatch)
    (h : r.m_brushes = [] ∨ (r.m_verticesValid = true ∧ r.m_indicesValid = true)) :
    (r.render ctx batch).validated = [] ∧
    (r.render ctx batch).renderer.m_vertexArray = r.m_vertexArray ∧
    (r.render ctx batch).renderer.m_opaqueFaceRenderer.m_indexArray =
      r.m_opaqueFaceRenderer.m_indexArray ∧
    (r.render ctx batch).renderer.m_transparentFaceRenderer.m_indexArray =
      r.m_transparentFaceRenderer.m_indexArray ∧
    (r.render ctx batch).renderer.m_edgeRenderer.m_indexArray = r.m_edgeRenderer.m_indexArray ∧
    (r.render ctx batch).renderer.m_verticesValid = r.m_verticesValid ∧
    (r.render ctx batch).renderer.m_indicesValid = r.m_indicesValid := by
  rcases h with h | ⟨hv, hi⟩
  · rw [BrushRenderer.render_empty r ctx batch h]
    simp
  · unfold BrushRenderer.render
    dsimp only
    split_ifs <;>
      simp_all [BrushRenderer.renderFaces, FaceRenderer.setGrayscale, FaceRenderer.setTint,
        FaceRenderer.setTintColor, FaceRenderer.setAlpha]

/-! ## Claims about the cache -/

/-- C1, evaluated where it fails: a freshly constructed renderer is given one brush by
`addBrushes` and rendered.  `render` runs only `validateIndices`; the vertex store stays
empty although the vertex collect pass over the current brush set yields five vertices,
and the vertex data is marked valid. -/
theorem C1_vertex_store_stale_after_addBrushes :
    (((BrushRenderer.new false).run [Op.mutate (Mutator.addBrushes [wedgeBrush])]).render
        ⟨true, true⟩ []).renderer.m_vertexArray = [] ∧
    (((BrushRenderer.new false).run [Op.mutate (Mutator.addBrushes [wedgeBrush])]).render
        ⟨true, true⟩ []).renderer.collectedVertices = [50, 51, 52, 53, 54] ∧
    (((BrushRenderer.new false).run [Op.mutate (Mutator.addBrushes [wedgeBrush])]).render
        ⟨true, true⟩ []).renderer.m_verticesValid = true ∧
    (((BrushRenderer.new false).run [Op.mutate (Mutator.addBrushes [wedgeBrush])]).render
        ⟨true, true⟩ []).validated = [Validation.indices] := by
  decide

theorem Mutator.apply_filter (r : BrushRenderer) (m : Mutator) :
    (m.apply r).m_filter = r.m_filter := by
  cases m with
  | addBrushes brushes => rfl
  | setBrushes brushes => rfl
  | clear => rfl
  | setShowHiddenBrushes b =>
    by_cases e : b = r.m_showHiddenBrushes <;>
      simp [Mutator.apply, BrushRenderer.setShowHiddenBrushes, e,
        BrushRenderer.invalidateVertices, BrushRenderer.invalidateIndices]
  | cosmetic setter => cases setter <;> rfl

theorem BrushRenderer.run_filter (ops : List Op) (r : BrushRenderer) :
    (r.run ops).m_filter = r.m_filter := by
  unfold BrushRenderer.run
  induction ops generalizing r with
  | nil => rfl
  | cons op rest ih =>
    rw [List.foldl_cons, ih]
    cases op with
    | mutate m => exact Mutator.apply_filter r m
    | render ctx batch => exact (r.render_frame ctx batch).2.1

theorem BrushRenderer.new_eq_newWithFilter (transparent : Bool) :
    BrushRenderer.new transparent = BrushRenderer.newWithFilter (NoFilter transparent) :=
  rfl

theorem IndicesCurrent.of_newWithFilter (filter : Filter) :
    IndicesCurrent (BrushRenderer.newWithFilter filter) :=
  fun _ => ⟨rfl, rfl, rfl⟩

/-- C2: after any sequence of public operations on a freshly constructed renderer, over
whatever filter it was constructed with (`BrushRenderer(transparent)` is the case of
`NoFilter(transparent)`), that leaves a non-empty brush set, `render` leaves the
opaque-face, transparent-face and edge index buckets equal to the result of the index
collect pass over the current brush set under the current filter and show-hidden flag. -/
theorem C2_index_buckets_current_after_render (filter : Filter) (ops : List Op)
    (ctx : RenderContext) (batch : RenderBatch)
    (h : ((BrushRenderer.newWithFilter filter).run ops).m_brushes ≠ []) :
    (((BrushRenderer.newWithFilter filter).run ops).render ctx batch).renderer.m_opaqueFaceRenderer.m_indexArray =
      (collectIndicesPass ((BrushRenderer.newWithFilter filter).run ops).m_brushes filter
        ((BrushRenderer.newWithFilter filter).run ops).m_showHiddenBrushes).m_opaqueFaceIndices ∧
    (((BrushRenderer.newWithFilter filter).run ops).render ctx batch).renderer.m_transparentFaceRenderer.m_indexArray =
      (collectIndicesPass ((BrushRenderer.newWithFilter filter).run ops).m_brushes filter
        ((BrushRenderer.newWithFilter filter).run ops).m_showHiddenBrushes).m_transparentFaceIndices ∧
    (((BrushRenderer.newWithFilter filter).run ops).render ctx batch).renderer.m_edgeRenderer.m_indexArray =
      (collectIndicesPass ((BrushRenderer.newWithFilter filter).run ops).m_brushes filter
        ((BrushRenderer.newWithFilter filter).run ops).m_showHiddenBrushes).m_edgeIndices ∧
    ((BrushRenderer.newWithFilter filter).run ops).m_filter = filter := by
  have inv := IndicesCurrent.render _ ctx batch
    (IndicesCurrent.run ops _ (IndicesCurrent.of_newWithFilter filter))
  have valid := (BrushRenderer.render_valid _ ctx batch h).2
  have hf : ((BrushRenderer.newWithFilter filter).run ops).m_filter = filter :=
    BrushRenderer.run_filter ops _
  have := inv valid
  rw [BrushRenderer.render_collectedIndices, BrushRenderer.collectedIndices, hf] at this
  exact ⟨this.1, this.2.1, this.2.2, hf⟩

/-- C2 at a concrete call sequence over a filter that hides material 9 and makes brush 20
transparent: add the wedge and a cube, render, reveal hidden brushes, add another cube.
With hidden brushes revealed the edge bucket holds a line loop for the wedge's hidden face
too, fourteen in all. -/
theorem C2_index_buckets_current_after_render_witness :
    ((BrushRenderer.newWithFilter (fixtureFilter 9 20)).run
        [Op.mutate (Mutator.addBrushes [wedgeBrush, cubeBrush 20 8 24]),
          Op.render ⟨true, false⟩ [], Op.mutate (Mutator.setShowHiddenBrushes true),
          Op.mutate (Mutator.addBrushes [cubeBrush 10 7 0])]).m_brushes ≠ [] ∧
    (((BrushRenderer.newWithFilter (fixtureFilter 9 20)).run
        [Op.mutate (Mutator.addBrushes [wedgeBrush, cubeBrush 20 8 24]),
          Op.render ⟨true, false⟩ [], Op.mutate (Mutator.setShowHiddenBrushes true),
          Op.mutate (Mutator.addBrushes [cubeBrush 10 7 0])]).render
        ⟨true, true⟩ []).renderer.m_edgeRenderer.m_indexArray =
      (collectIndicesPass
        ((BrushRenderer.newWithFilter (fixtureFilter 9 20)).run
          [Op.mutate (Mutator.addBrushes [wedgeBrush, cubeBrush 20 8 24]),
            Op.render ⟨true, false⟩ [], Op.mutate (Mutator.setShowHiddenBrushes true),
            Op.mutate (Mutator.addBrushes [cubeBrush 10 7 0])]).m_brushes
        (fixtureFilter 9 20)
        ((BrushRenderer.newWithFilter (fixtureFilter 9 20)).run
          [Op.mutate (Mutator.addBrushes [wedgeBrush, cubeBrush 20 8 24]),
            Op.render ⟨true, false⟩ [], Op.mutate (Mutator.setShowHiddenBrushes true),
            Op.mutate (Mutator.addBrushes [cubeBrush 10 7 0])]).m_showHiddenBrushes).m_edgeIndices ∧
    (((BrushRenderer.newWithFilter (fixtureFilter 9 20)).run
        [Op.mutate (Mutator.addBrushes [wedgeBrush, cubeBrush 20 8 24]),
          Op.render ⟨true, false⟩ [], Op.mutate (Mutator.setShowHiddenBrushes true),
          Op.mutate (Mutator.addBrushes [cubeBrush 10 7 0])]).render
        ⟨true, true⟩ []).renderer.m_edgeRenderer.m_indexArray.runs.length = 14 ∧
    (((BrushRenderer.newWithFilter (fixtureFilter 9 20)).run
        [Op.mutate (Mutator.addBrushes [wedgeBrush, cubeBrush 20 8 24]),
          Op.render ⟨true, false⟩ []]).render
        ⟨true, true⟩ []).renderer.m_edgeRenderer.m_indexArray.runs.length = 7 :=
  ⟨by decide,
    (C2_index_buckets_current_after_render (fixtureFilter 9 20)
      [Op.mutate (Mutator.addBrushes [wedgeBrush, cubeBrush 20 8 24]),
        Op.render ⟨true, false⟩ [], Op.mutate (Mutator.setShowHiddenBrushes true),
        Op.mutate (Mutator.addBrushes [cubeBrush 10 7 0])]
      ⟨true, true⟩ [] (by decide)).2.2.1,
    by decide, by decide⟩

/-- C5, evaluated where it fails: on a freshly constructed renderer `addBrushes` and
`setBrushes` mark the index data invalid but leave the vertex data marked valid. -/
theorem C5_addBrushes_setBrushes_leave_vertices_valid :
    ((BrushRenderer.new false).addBrushes [wedgeBrush]).m_verticesValid = true ∧
    ((BrushRenderer.new false).addBrushes [wedgeBrush]).m_indicesValid = false ∧
    ((BrushRenderer.new false).setBrushes [wedgeBrush]).m_verticesValid = true ∧
    ((BrushRenderer.new false).setBrushes [wedgeBrush]).m_indicesValid = false := by
  decide

/-- C6: `setShowHiddenBrushes(v)` leaves the whole renderer unchanged when `v` is the
current show-hidden flag; otherwise it stores `v`, marks the vertex data invalid and with
it the index data, and drops the vertex store. -/
theorem C6_setShowHiddenBrushes (r : BrushRenderer) (v : Bool) :
    (v = r.m_showHiddenBrushes → r.setShowHiddenBrushes v = r) ∧
    (v ≠ r.m_showHiddenBrushes →
      (r.setShowHiddenBrushes v).m_showHiddenBrushes = v ∧
      (r.setShowHiddenBrushes v).m_verticesValid = false ∧
      (r.setShowHiddenBrushes v).m_indicesValid = false ∧
      (r.setShowHiddenBrushes v).m_vertexArray = [] ∧
      (r.setShowHiddenBrushes v).m_brushes = r.m_brushes) := by
  constructor
  · intro e
    simp [BrushRenderer.setShowHiddenBrushes, e]
  · intro e
    simp [BrushRenderer.setShowHiddenBrushes, e, BrushRenderer.invalidateVertices,
      BrushRenderer.invalidateIndices]

/-- C6 at concrete inputs: on a freshly constructed renderer, whose show-hidden flag is
false, `setShowHiddenBrushes(true)` stores the flag and invalidates both caches. -/
theorem C6_setShowHiddenBrushes_witness :
    ((BrushRenderer.new false).setShowHiddenBrushes true).m_showHiddenBrushes = true ∧
    ((BrushRenderer.new false).setShowHiddenBrushes true).m_verticesValid = false ∧
    ((BrushRenderer.new false).setShowHiddenBrushes true).m_indicesValid = false ∧
    ((BrushRenderer.new false).setShowHiddenBrushes true).m_vertexArray = [] ∧
    ((BrushRenderer.new false).setShowHiddenBrushes true).m_brushes =
      (BrushRenderer.new false).m_brushes :=
  (C6_setShowHiddenBrushes (BrushRenderer.new false) true).2 (by decide)

/-- C7: every cosmetic setter leaves both validity flags, the brush list, the vertex
store and the face and edge renderers with their index buckets unchanged; a following
`render` runs exactly the revalidations it would have run without the setter, and none
when the vertex and index data were valid. -/
theorem C7_cosmetic_setters_keep_cache (r : BrushRenderer) (c : Cosmetic)
    (ctx : RenderContext) (batch : RenderBatch) :
    (c.apply r).m_verticesValid = r.m_verticesValid ∧
    (c.apply r).m_indicesValid = r.m_indicesValid ∧
    (c.apply r).m_brushes = r.m_brushes ∧
    (c.apply r).m_vertexArray = r.m_vertexArray ∧
    (c.apply r).m_opaqueFaceRenderer = r.m_opaqueFaceRenderer ∧
    (c.apply r).m_transparentFaceRenderer = r.m_transparentFaceRenderer ∧
    (c.apply r).m_edgeRenderer = r.m_edgeRenderer ∧
    ((c.apply r).render ctx batch).validated = (r.render ctx batch).validated ∧
    (r.m_verticesValid = true → r.m_indicesValid = true →
      ((c.apply r).render ctx batch).validated = []) := by
  have frame : (c.apply r).m_verticesValid = r.m_verticesValid ∧
      (c.apply r).m_indicesValid = r.m_indicesValid ∧
      (c.apply r).m_brushes = r.m_brushes := by
    cases c <;> exact ⟨rfl, rfl, rfl⟩
  obtain ⟨hv, hi, hb⟩ := frame
  refine ⟨hv, hi, hb, ?_, ?_, ?_, ?_, ?_, ?_⟩
  · cases c <;> rfl
  · cases c <;> rfl
  · cases c <;> rfl
  · cases c <;> rfl
  · rw [BrushRenderer.render_validated, BrushRenderer.render_validated, hv, hi, hb]
  · intro hv' hi'
    rw [BrushRenderer.render_validated, hv, hi, hv', hi']
    simp

/-- C7 at concrete inputs: a renderer holding a cube has been rendered, so its caches are
valid; after `setEdgeColor` the next `render` runs no revalidation. -/
theorem C7_cosmetic_setters_keep_cache_witness :
    ((Cosmetic.setEdgeColor 4).apply
      ((BrushRenderer.new false).run
        [Op.mutate (Mutator.addBrushes [cubeBrush 10 7 0]),
          Op.render ⟨true, true⟩ []]) |>.render ⟨true, true⟩ []).validated = [] :=
  (C7_cosmetic_setters_keep_cache
    ((BrushRenderer.new false).run
      [Op.mutate (Mutator.addBrushes [cubeBrush 10 7 0]), Op.render ⟨true, true⟩ []])
    (Cosmetic.setEdgeColor 4) ⟨true, true⟩ []).2.2.2.2.2.2.2.2 (by decide) (by decide)

/-- C8, evaluated where it fails: after the index data has been revalidated with face
colour 0, `setFaceColor(5)` and `setTintColor(6)` are called and the renderer renders
again without revalidating.  Both face batches carry the tint colour 6 and still the face
colour 0. -/
theorem C8_face_color_stale_after_setFaceColor :
    ((BrushRenderer.new false).run
        [Op.mutate (Mutator.addBrushes [wedgeBrush]), Op.render ⟨true, true⟩ [],
          Op.mutate (Mutator.cosmetic (Cosmetic.setFaceColor 5)),
          Op.mutate (Mutator.cosmetic (Cosmetic.setTintColor 6))]).m_faceColor = 5 ∧
    (((BrushRenderer.new false).run
        [Op.mutate (Mutator.addBrushes [wedgeBrush]), Op.render ⟨true, true⟩ [],
          Op.mutate (Mutator.cosmetic (Cosmetic.setFaceColor 5)),
          Op.mutate (Mutator.cosmetic (Cosmetic.setTintColor 6))]).render
        ⟨true, true⟩ []).renderBatch.filterMap Renderable.faceColor? = [0, 0] ∧
    (((BrushRenderer.new false).run
        [Op.mutate (Mutator.addBrushes [wedgeBrush]), Op.render ⟨true, true⟩ [],
          Op.mutate (Mutator.cosmetic (Cosmetic.setFaceColor 5)),
          Op.mutate (Mutator.cosmetic (Cosmetic.setTintColor 6))]).render
        ⟨true, true⟩ []).renderBatch.filterMap Renderable.tintColor? = [6, 6] ∧
    (((BrushRenderer.new false).run
        [Op.mutate (Mutator.addBrushes [wedgeBrush]), Op.render ⟨true, true⟩ [],
          Op.mutate (Mutator.cosmetic (Cosmetic.setFaceColor 5)),
          Op.mutate (Mutator.cosmetic (Cosmetic.setTintColor 6))]).render
        ⟨true, true⟩ []).validated = [] := by
  decide

/-- C9: a second `render` with no mutation in between runs neither `validateVertices` nor
`validateIndices` and leaves the vertex store, the three index buckets and both validity
flags as the first `render` left them, whatever the two render contexts are. -/
theorem C9_render_idempotent_on_cache (r : BrushRenderer) (ctx₁ ctx₂ : RenderContext)
    (batch₁ batch₂ : RenderBatch) :
    (((r.render ctx₁ batch₁).renderer).render ctx₂ batch₂).validated = [] ∧
    (((r.render ctx₁ batch₁).renderer).render ctx₂ batch₂).renderer.m_vertexArray =
      (r.render ctx₁ batch₁).renderer.m_vertexArray ∧
    (((r.render ctx₁ batch₁).renderer).render ctx₂ batch₂).renderer.m_opaqueFaceRenderer.m_indexArray =
      (r.render ctx₁ batch₁).renderer.m_opaqueFaceRenderer.m_indexArray ∧
    (((r.render ctx₁ batch₁).renderer).render ctx₂ batch₂).renderer.m_transparentFaceRenderer.m_indexArray =
      (r.render ctx₁ batch₁).renderer.m_transparentFaceRenderer.m_indexArray ∧
    (((r.render ctx₁ batch₁).renderer).render ctx₂ batch₂).renderer.m_edgeRenderer.m_indexArray =
      (r.render ctx₁ batch₁).renderer.m_edgeRenderer.m_indexArray ∧
    (((r.render ctx₁ batch₁).renderer).render ctx₂ batch₂).renderer.m_verticesValid =
      (r.render ctx₁ batch₁).renderer.m_verticesValid ∧
    (((r.render ctx₁ batch₁).renderer).render ctx₂ batch₂).renderer.m_indicesValid =
      (r.render ctx₁ batch₁).renderer.m_indicesValid := by
  apply BrushRenderer.render_cached
  by_cases hb : r.m_brushes = []
  · left
    rw [(r.render_frame ctx₁ batch₁).1]
    exact hb
  · right
    exact r.render_valid ctx₁ batch₁ hb

theorem Mutator.changesScene_invalidates (r : BrushRenderer) (m : Mutator)
    (h : m.changesScene r = true) : (m.apply r).m_indicesValid = false := by
  cases m with
  | addBrushes brushes => rfl
  | setBrushes brushes => rfl
  | clear => rfl
  | setShowHiddenBrushes b =>
    have e : ¬ b = r.m_showHiddenBrushes := by
      simpa [Mutator.changesScene] using h
    simp [Mutator.apply, BrushRenderer.setShowHiddenBrushes, e,
      BrushRenderer.invalidateVertices, BrushRenderer.invalidateIndices]
  | cosmetic setter => simp [Mutator.changesScene] at h

/-- C10 as stated fails: a renderer holding one brush is cleared and rendered.  The
brush set is empty, so `render` runs no revalidation and both validity flags stay
false. -/
theorem C10_clear_then_render_revalidates_nothing :
    ((Mutator.clear.apply ((BrushRenderer.new false).addBrushes [wedgeBrush])).render
        ⟨true, true⟩ []).validated = [] ∧
    ((Mutator.clear.apply ((BrushRenderer.new false).addBrushes [wedgeBrush])).render
        ⟨true, true⟩ []).renderer.m_verticesValid = false ∧
    ((Mutator.clear.apply ((BrushRenderer.new false).addBrushes [wedgeBrush])).render
        ⟨true, true⟩ []).renderer.m_indicesValid = false := by
  decide

/-- C10, amended: after `addBrushes`, `setBrushes`, `clear` or `setShowHiddenBrushes` with
a changed value, a `render` on a non-empty brush set runs `validateIndices` exactly once
and `validateVertices` at most once and leaves both validity flags true; on an empty
brush set, as always after `clear`, it runs no revalidation, leaves the renderer as the
mutator left it, and the index data stays invalid. -/
theorem C10_render_after_scene_change (r : BrushRenderer) (m : Mutator) (ctx : RenderContext)
    (batch : RenderBatch) (h : m.changesScene r = true) :
    ((m.apply r).m_brushes ≠ [] →
      ((m.apply r).render ctx batch).validated.count Validation.indices = 1 ∧
      ((m.apply r).render ctx batch).validated.count Validation.vertices ≤ 1 ∧
      ((m.apply r).render ctx batch).renderer.m_verticesValid = true ∧
      ((m.apply r).render ctx batch).renderer.m_indicesValid = true) ∧
    ((m.apply r).m_brushes = [] →
      ((m.apply r).render ctx batch).validated = [] ∧
      ((m.apply r).render ctx batch).renderer = m.apply r ∧
      ((m.apply r).render ctx batch).renderer.m_indicesValid = false) ∧
    (Mutator.clear.apply r).m_brushes = [] := by
  have hi := Mutator.changesScene_invalidates r m h
  refine ⟨?_, ?_, rfl⟩
  · intro hb
    refine ⟨?_, ?_, (m.apply r).render_valid ctx batch hb⟩
    · rw [BrushRenderer.render_validated, BrushRenderer.isEmpty_eq_false _ hb, hi]
      cases (m.apply r).m_verticesValid <;> decide
    · rw [BrushRenderer.render_validated, BrushRenderer.isEmpty_eq_false _ hb, hi]
      cases (m.apply r).m_verticesValid <;> decide
  · intro hb
    rw [BrushRenderer.render_empty _ ctx batch hb]
    exact ⟨rfl, rfl, hi⟩

/-- C10, amended, at concrete inputs: `setShowHiddenBrushes(true)` on a renderer holding a
cube, followed by `render`. -/
theorem C10_render_after_scene_change_witness :
    (Mutator.setShowHiddenBrushes true).changesScene
        ((BrushRenderer.new false).addBrushes [cubeBrush 10 7 0]) = true ∧
    (((Mutator.setShowHiddenBrushes true).apply
        ((BrushRenderer.new false).addBrushes [cubeBrush 10 7 0])).render
          ⟨true, true⟩ []).validated.count Validation.indices = 1 ∧
    (((Mutator.setShowHiddenBrushes true).apply
        ((BrushRenderer.new false).addBrushes [cubeBrush 10 7 0])).render
          ⟨true, true⟩ []).renderer.m_indicesValid = true :=
  ⟨by decide,
    ((C10_render_after_scene_change ((BrushRenderer.new false).addBrushes [cubeBrush 10 7 0])
      (Mutator.setShowHiddenBrushes true) ⟨true, true⟩ [] (by decide)).1 (by decide)).1,
    ((C10_render_after_scene_change ((BrushRenderer.new false).addBrushes [cubeBrush 10 7 0])
      (Mutator.setShowHiddenBrushes true) ⟨true, true⟩ [] (by decide)).1 (by decide)).2.2.2⟩

/-! ## Vertices before indices -/

theorem Mutator.mutate_keeps_vertices_indices (r : BrushRenderer) (m : Mutator)
    (h : r.m_verticesValid = false → r.m_indicesValid = false) :
    (m.apply r).m_verticesValid = false → (m.apply r).m_indicesValid = false := by
  cases m with
  | addBrushes brushes => intro _; rfl
  | setBrushes brushes => intro _; rfl
  | clear => intro _; rfl
  | setShowHiddenBrushes b =>
    by_cases e : b = r.m_showHiddenBrushes
    · simpa [Mutator.apply, BrushRenderer.setShowHiddenBrushes, e] using h
    · intro _
      simp [Mutator.apply, BrushRenderer.setShowHiddenBrushes, e,
        BrushRenderer.invalidateVertices, BrushRenderer.invalidateIndices]
  | cosmetic setter => cases setter <;> exact h

theorem Op.op_keeps_vertices_indices (r : BrushRenderer) (op : Op)
    (h : r.m_verticesValid = false → r.m_indicesValid = false) :
    (op.apply r).m_verticesValid = false → (op.apply r).m_indicesValid = false := by
  cases op with
  | mutate m => exact Mutator.mutate_keeps_vertices_indices r m h
  | render ctx batch =>
    by_cases hb : r.m_brushes = []
    · simpa [Op.apply, BrushRenderer.render_empty r ctx batch hb] using h
    · intro hv
      have := (r.render_valid ctx batch hb).1
      simp [Op.apply, this] at hv

theorem BrushRenderer.run_vertices_indices (ops : List Op) (r : BrushRenderer)
    (h : r.m_verticesValid = false → r.m_indicesValid = false) :
    (r.run ops).m_verticesValid = false → (r.run ops).m_indicesValid = false := by
  unfold BrushRenderer.run
  induction ops generalizing r with
  | nil => exact h
  | cons op rest ih =>
    rw [List.foldl_cons]
    exact ih _ (Op.op_keeps_vertices_indices r op h)

/-- C11: in every state reached from a freshly constructed renderer by a sequence of
public operations (mutators, cosmetic setters, `render`), invalid vertex data implies
invalid index data. -/
theorem C11_invalid_vertices_imply_invalid_indices (transparent : Bool) (ops : List Op)
    (h : ((BrushRenderer.new transparent).run ops).m_verticesValid = false) :
    ((BrushRenderer.new transparent).run ops).m_indicesValid = false :=
  BrushRenderer.run_vertices_indices ops (BrushRenderer.new transparent)
    (fun hv => by simp [BrushRenderer.new] at hv) h

/-- C11 at a concrete call sequence that ends with invalid vertex data: add a cube,
render, reveal hidden brushes, add a wedge. -/
theorem C11_invalid_vertices_imply_invalid_indices_witness :
    ((BrushRenderer.new false).run
      [Op.mutate (Mutator.addBrushes [cubeBrush 10 7 0]), Op.render ⟨true, true⟩ [],
        Op.mutate (Mutator.setShowHiddenBrushes true),
        Op.mutate (Mutator.addBrushes [wedgeBrush])]).m_verticesValid = false ∧
    ((BrushRenderer.new false).run
      [Op.mutate (Mutator.addBrushes [cubeBrush 10 7 0]), Op.render ⟨true, true⟩ [],
        Op.mutate (Mutator.setShowHiddenBrushes true),
        Op.mutate (Mutator.addBrushes [wedgeBrush])]).m_indicesValid = false :=
  ⟨by decide,
    C11_invalid_vertices_imply_invalid_indices false
      [Op.mutate (Mutator.addBrushes [cubeBrush 10 7 0]), Op.render ⟨true, true⟩ [],
        Op.mutate (Mutator.setShowHiddenBrushes true),
        Op.mutate (Mutator.addBrushes [wedgeBrush])] (by decide)⟩

/-- C12, evaluated where it fails: a renderer holding the wedge is rendered and then
cleared.  `clear` empties the brush list, the vertex store and both face buckets, but not
the edge renderer: the edge bucket still holds the two line loops of the wedge's faces. -/
theorem C12_clear_keeps_edge_bucket :
    (((BrushRenderer.new false).run
        [Op.mutate (Mutator.addBrushes [wedgeBrush]), Op.render ⟨true, true⟩ []]).clear).m_brushes
      = [] ∧
    (((BrushRenderer.new false).run
        [Op.mutate (Mutator.addBrushes [wedgeBrush]), Op.render ⟨true, true⟩ []]).clear).m_vertexArray
      = [] ∧
    (((BrushRenderer.new false).run
        [Op.mutate (Mutator.addBrushes [wedgeBrush]),
          Op.render ⟨true, true⟩ []]).clear).m_opaqueFaceRenderer.m_indexArray.runs = [] ∧
    (((BrushRenderer.new false).run
        [Op.mutate (Mutator.addBrushes [wedgeBrush]),
          Op.render ⟨true, true⟩ []]).clear).m_transparentFaceRenderer.m_indexArray.runs = [] ∧
    (((BrushRenderer.new false).run
        [Op.mutate (Mutator.addBrushes [wedgeBrush]),
          Op.render ⟨true, true⟩ []]).clear).m_edgeRenderer.m_indexArray.runs.length = 2 := by
  decide

/-! ## The index collect pass in closed form -/

theorem CollectIndices.collectFaceIndices_eq (v : CollectIndices) (brush : Brush) :
    v.collectFaceIndices brush =
      if v.m_filter.transparent brush then
        ⟨v.m_filter, v.m_opaqueFaceIndices,
          ⟨v.m_transparentFaceIndices.size,
            v.m_transparentFaceIndices.runs ++
              (brush.faces.filter v.m_filter.show).map BrushFace.polygonEntry⟩,
          ⟨v.m_edgeIndices.size,
            v.m_edgeIndices.runs ++ (brush.faces.filter v.m_filter.show).map BrushFace.lineLoopRun⟩⟩
      else
        ⟨v.m_filter,
          ⟨v.m_opaqueFaceIndices.size,
            v.m_opaqueFaceIndices.runs ++
              (brush.faces.filter v.m_filter.show).map BrushFace.polygonEntry⟩,
          v.m_transparentFaceIndices,
          ⟨v.m_edgeIndices.size,
            v.m_edgeIndices.runs ++ (brush.faces.filter v.m_filter.show).map BrushFace.lineLoopRun⟩⟩ := by
  unfold CollectIndices.collectFaceIndices
  generalize brush.faces = faces
  induction faces generalizing v with
  | nil => by_cases ht : v.m_filter.transparent brush <;> simp [ht]
  | cons face rest ih =>
    rw [List.foldl_cons, ih]
    by_cases hs : v.m_filter.show face <;> by_cases ht : v.m_filter.transparent brush <;>
      simp [hs, ht, List.filter_cons, BrushFace.getFaceIndex, BrushFace.getEdgeIndex,
        BrushFace.polygonEntry, BrushFace.lineLoopRun]

theorem CollectIndices.collect_indices_accept_eq (v : CollectIndices) (brushes : BrushList) :
    Node.accept brushes CollectIndices.doVisit v =
      ⟨v.m_filter,
        ⟨v.m_opaqueFaceIndices.size,
          v.m_opaqueFaceIndices.runs ++
            (shownFaces v.m_filter (brushesOfKind v.m_filter false brushes)).map
              BrushFace.polygonEntry⟩,
        ⟨v.m_transparentFaceIndices.size,
          v.m_transparentFaceIndices.runs ++
            (shownFaces v.m_filter (brushesOfKind v.m_filter true brushes)).map
              BrushFace.polygonEntry⟩,
        ⟨v.m_edgeIndices.size,
          v.m_edgeIndices.runs ++ (shownFaces v.m_filter brushes).map BrushFace.lineLoopRun⟩⟩ := by
  unfold Node.accept
  induction brushes generalizing v with
  | nil => simp [shownFaces, brushesOfKind]
  | cons brush rest ih =>
    rw [List.foldl_cons, ih]
    by_cases ht : v.m_filter.transparent brush <;>
      simp [CollectIndices.doVisit, CollectIndices.collectFaceIndices_eq, ht, shownFaces,
        brushesOfKind, List.filter_cons]

theorem collectIndicesPass_opaque_runs (brushes : BrushList) (filter : Filter)
    (showHiddenBrushes : Bool) :
    (collectIndicesPass brushes filter showHiddenBrushes).m_opaqueFaceIndices.runs =
      (shownFaces (FilterWrapper filter showHiddenBrushes)
        (brushesOfKind (FilterWrapper filter showHiddenBrushes) false brushes)).map
          BrushFace.polygonEntry := by
  simp [collectIndicesPass, CollectIndices.collect_indices_accept_eq, CollectIndices.new]

theorem collectIndicesPass_transparent_runs (brushes : BrushList) (filter : Filter)
    (showHiddenBrushes : Bool) :
    (collectIndicesPass brushes filter showHiddenBrushes).m_transparentFaceIndices.runs =
      (shownFaces (FilterWrapper filter showHiddenBrushes)
        (brushesOfKind (FilterWrapper filter showHiddenBrushes) true brushes)).map
          BrushFace.polygonEntry := by
  simp [collectIndicesPass, CollectIndices.collect_indices_accept_eq, CollectIndices.new]

theorem collectIndicesPass_edge_runs (brushes : BrushList) (filter : Filter)
    (showHiddenBrushes : Bool) :
    (collectIndicesPass brushes filter showHiddenBrushes).m_edgeIndices.runs =
      (shownFaces (FilterWrapper filter showHiddenBrushes) brushes).map
        BrushFace.lineLoopRun := by
  simp [collectIndicesPass, CollectIndices.collect_indices_accept_eq, CollectIndices.new]

theorem filter_polygonEntry_same (faces : List BrushFace) (material : Texture)
    (h : ∀ face ∈ faces, face.texture = material) :
    (faces.map BrushFace.polygonEntry).filter (fun e => e.1 = material) =
      faces.map BrushFace.polygonEntry := by
  rw [List.filter_eq_self]
  intro e he
  obtain ⟨face, hf, rfl⟩ := List.mem_map.mp he
  simpa [BrushFace.polygonEntry] using h face hf

theorem filter_polygonEntry_other (faces : List BrushFace) (material other : Texture)
    (hne : material ≠ other) (h : ∀ face ∈ faces, face.texture = material) :
    (faces.map BrushFace.polygonEntry).filter (fun e => e.1 = other) = [] := by
  rw [List.filter_eq_nil_iff]
  intro e he
  obtain ⟨face, hf, rfl⟩ := List.mem_map.mp he
  simpa [BrushFace.polygonEntry, h face hf] using hne

/-! ## Partitioning by transparency and material -/

/-- C13: in a scene whose shown faces are `N` faces of material `A` on non-transparent
brushes and `M` faces of material `B` on transparent brushes, the index collect pass files
exactly `N` runs in the opaque bucket, all polygon runs under `A` and none under `B`, and
exactly `M` runs in the transparent bucket, all polygon runs under `B` and none under
`A`. -/
theorem C13_partition_by_material (brushes : BrushList) (filter : Filter)
    (showHiddenBrushes : Bool) (A B : Texture) (N M : Nat) (hAB : A ≠ B)
    (hA : ∀ face ∈ shownFaces (FilterWrapper filter showHiddenBrushes)
        (brushesOfKind (FilterWrapper filter showHiddenBrushes) false brushes),
      face.texture = A)
    (hN : (shownFaces (FilterWrapper filter showHiddenBrushes)
        (brushesOfKind (FilterWrapper filter showHiddenBrushes) false brushes)).length = N)
    (hB : ∀ face ∈ shownFaces (FilterWrapper filter showHiddenBrushes)
        (brushesOfKind (FilterWrapper filter showHiddenBrushes) true brushes),
      face.texture = B)
    (hM : (shownFaces (FilterWrapper filter showHiddenBrushes)
        (brushesOfKind (FilterWrapper filter showHiddenBrushes) true brushes)).length = M) :
    (collectIndicesPass brushes filter showHiddenBrushes).m_opaqueFaceIndices.runs.length = N ∧
    ((collectIndicesPass brushes filter showHiddenBrushes).m_opaqueFaceIndices.runsOf A).length
      = N ∧
    (collectIndicesPass brushes filter showHiddenBrushes).m_opaqueFaceIndices.runsOf B = [] ∧
    (∀ e ∈ (collectIndicesPass brushes filter showHiddenBrushes).m_opaqueFaceIndices.runs,
      e.2.primType = PrimType.PT_Polygons) ∧
    (collectIndicesPass brushes filter showHiddenBrushes).m_transparentFaceIndices.runs.length
      = M ∧
    ((collectIndicesPass brushes filter showHiddenBrushes).m_transparentFaceIndices.runsOf
      B).length = M ∧
    (collectIndicesPass brushes filter showHiddenBrushes).m_transparentFaceIndices.runsOf A
      = [] ∧
    (∀ e ∈ (collectIndicesPass brushes filter showHiddenBrushes).m_transparentFaceIndices.runs,
      e.2.primType = PrimType.PT_Polygons) := by
  have agree := IndexAgree.accept brushes _ _
    (IndexAgree.of_new (FilterWrapper filter showHiddenBrushes)
      (countIndicesPass brushes filter showHiddenBrushes))
  refine ⟨?_, ?_, ?_, agree.2.2.2.2.1, ?_, ?_, ?_, agree.2.2.2.2.2.1⟩
  · rw [collectIndicesPass_opaque_runs, List.length_map, hN]
  · rw [TexturedIndexArray.runsOf, collectIndicesPass_opaque_runs,
      filter_polygonEntry_same _ A hA, List.length_map, List.length_map, hN]
  · rw [TexturedIndexArray.runsOf, collectIndicesPass_opaque_runs,
      filter_polygonEntry_other _ A B hAB hA, List.map_nil]
  · rw [collectIndicesPass_transparent_runs, List.length_map, hM]
  · rw [TexturedIndexArray.runsOf, collectIndicesPass_transparent_runs,
      filter_polygonEntry_same _ B hB, List.length_map, List.length_map, hM]
  · rw [TexturedIndexArray.runsOf, collectIndicesPass_transparent_runs,
      filter_polygonEntry_other _ B A (fun h => hAB h.symm) hB, List.map_nil]

/-- C13 at a concrete scene: a cube of material 7 and the wedge (its material-9 face
hidden) are not transparent, a cube of material 8 is: seven faces of material 7, six of
material 8. -/
theorem C13_partition_by_material_witness :
    (collectIndicesPass [cubeBrush 10 7 0, wedgeBrush, cubeBrush 20 8 24] (fixtureFilter 9 20)
        false).m_opaqueFaceIndices.runs.length = 7 ∧
    ((collectIndicesPass [cubeBrush 10 7 0, wedgeBrush, cubeBrush 20 8 24] (fixtureFilter 9 20)
        false).m_opaqueFaceIndices.runsOf 7).length = 7 ∧
    (collectIndicesPass [cubeBrush 10 7 0, wedgeBrush, cubeBrush 20 8 24] (fixtureFilter 9 20)
        false).m_opaqueFaceIndices.runsOf 8 = [] ∧
    (collectIndicesPass [cubeBrush 10 7 0, wedgeBrush, cubeBrush 20 8 24] (fixtureFilter 9 20)
        false).m_transparentFaceIndices.runs.length = 6 ∧
    ((collectIndicesPass [cubeBrush 10 7 0, wedgeBrush, cubeBrush 20 8 24] (fixtureFilter 9 20)
        false).m_transparentFaceIndices.runsOf 8).length = 6 ∧
    (collectIndicesPass [cubeBrush 10 7 0, wedgeBrush, cubeBrush 20 8 24] (fixtureFilter 9 20)
        false).m_transparentFaceIndices.runsOf 7 = [] :=
  have h := C13_partition_by_material [cubeBrush 10 7 0, wedgeBrush, cubeBrush 20 8 24]
    (fixtureFilter 9 20) false 7 8 7 6 (by decide) (by decide) (by decide) (by decide)
    (by decide)
  ⟨h.1, h.2.1, h.2.2.1, h.2.2.2.2.1, h.2.2.2.2.2.1, h.2.2.2.2.2.2.1⟩

/-- C14, evaluated where it fails: a renderer constructed over a filter that hides no face
and makes the second of two cubes transparent is given both cubes by `setBrushes` and
rendered.  The opaque bucket holds the polygon runs of the six faces of the first cube,
the transparent bucket those of the second, the edge bucket twelve line loops; but the
vertex store has length 0, not 48, because `validateVertices` never ran.  The same calls
after a `clear`, which invalidates the vertex data, give a store of length 48; a renderer
from `BrushRenderer(false)` given the two cubes also ends with an empty store. -/
theorem C14_two_cubes_vertex_store_empty :
    ((BrushRenderer.newWithFilter (fixtureFilter 99 20)).run
        [Op.mutate (Mutator.setBrushes [cubeBrush 10 7 0, cubeBrush 20 8 24]),
          Op.render ⟨true, true⟩ []]).m_vertexArray.length = 0 ∧
    ((BrushRenderer.newWithFilter (fixtureFilter 99 20)).run
        [Op.mutate (Mutator.setBrushes [cubeBrush 10 7 0, cubeBrush 20 8 24]),
          Op.render ⟨true, true⟩ []]).collectedVertices.length = 48 ∧
    (((BrushRenderer.newWithFilter (fixtureFilter 99 20)).run
        [Op.mutate (Mutator.setBrushes [cubeBrush 10 7 0, cubeBrush 20 8 24]),
          Op.render ⟨true, true⟩ []]).m_opaqueFaceRenderer.m_indexArray.runs.map
            (fun e => e.2.face)) = (cubeBrush 10 7 0).faces ∧
    (((BrushRenderer.newWithFilter (fixtureFilter 99 20)).run
        [Op.mutate (Mutator.setBrushes [cubeBrush 10 7 0, cubeBrush 20 8 24]),
          Op.render ⟨true, true⟩ []]).m_transparentFaceRenderer.m_indexArray.runs.map
            (fun e => e.2.face)) = (cubeBrush 20 8 24).faces ∧
    ((BrushRenderer.newWithFilter (fixtureFilter 99 20)).run
        [Op.mutate (Mutator.setBrushes [cubeBrush 10 7 0, cubeBrush 20 8 24]),
          Op.render ⟨true, true⟩ []]).m_edgeRenderer.m_indexArray.runs.length = 12 ∧
    ((BrushRenderer.newWithFilter (fixtureFilter 99 20)).run
        [Op.mutate Mutator.clear,
          Op.mutate (Mutator.setBrushes [cubeBrush 10 7 0, cubeBrush 20 8 24]),
          Op.render ⟨true, true⟩ []]).m_vertexArray.length = 48 ∧
    ((BrushRenderer.new false).run
        [Op.mutate (Mutator.setBrushes [cubeBrush 10 7 0, cubeBrush 20 8 24]),
          Op.render ⟨true, true⟩ []]).m_vertexArray.length = 0 := by
  decide

/-! ## Filters -/

/-- C15: an edge is visible under the default filter exactly when the owning brush of its
first adjoining face is visible or the owning brush of its second adjoining face is. -/
theorem C15_edge_visible_iff_owner_visible (filter : DefaultFilter) (store : BrushStore)
    (edge : BrushEdge) :
    filter.visibleEdge store edge = true ↔
      filter.visibleBrush (edge.firstFace.owner store) = true ∨
        filter.visibleBrush (edge.secondFace.owner store) = true := by
  simp [DefaultFilter.visibleEdge, DefaultFilter.visibleBrush, EditorContext.visibleFace]

/-- C16: for an edge whose two adjoining faces have the same owning brush, the default
filter's `selected(edge)` returns, and it is true exactly when that brush is selected (it or
its parent), or the first face is selected, or the second face is selected. -/
theorem C16_edge_selected_iff (filter : DefaultFilter) (store : BrushStore) (edge : BrushEdge)
    (h : edge.secondFace.brush = edge.firstFace.brush) :
    ∃ result, filter.selectedEdge store edge = some result ∧
      (result = true ↔
        filter.selectedBrush (edge.firstFace.owner store) = true ∨
          filter.selectedFace edge.firstFace = true ∨
          filter.selectedFace edge.secondFace = true) := by
  refine ⟨_, by simp only [DefaultFilter.selectedEdge, h, if_true]; rfl, ?_⟩
  simp [BrushFace.owner, or_assoc]

/-- C16 at a concrete edge: the two faces of the wedge, the second face selected. -/
theorem C16_edge_selected_iff_witness :
    wedgeEdge.secondFace.brush = wedgeEdge.firstFace.brush ∧
    ∃ result, (DefaultFilter.mk fixtureContext).selectedEdge fixtureStore wedgeEdge
        = some result ∧
      (result = true ↔
        (DefaultFilter.mk fixtureContext).selectedBrush (wedgeEdge.firstFace.owner fixtureStore)
            = true ∨
          (DefaultFilter.mk fixtureContext).selectedFace wedgeEdge.firstFace = true ∨
          (DefaultFilter.mk fixtureContext).selectedFace wedgeEdge.secondFace = true) :=
  ⟨by decide, C16_edge_selected_iff (DefaultFilter.mk fixtureContext) fixtureStore wedgeEdge
    (by decide)⟩

/-- C17: with the show-hidden flag set, the filter wrapper shows every face and every
edge whatever the wrapped filter says; with either value of the flag its
`transparent(brush)` is the wrapped filter's. -/
theorem C17_filter_wrapper (filter : Filter) (showHiddenBrushes : Bool) (face : BrushFace)
    (edge : BrushEdge) (brush : Brush) :
    (FilterWrapper filter true).show face = true ∧
    (FilterWrapper filter true).showEdge edge = true ∧
    (FilterWrapper filter showHiddenBrushes).transparent brush = filter.transparent brush := by
  simp [FilterWrapper, Filter.show, Filter.showEdge, Filter.transparent]

/-! ## Empty and all-hidden scenes -/

theorem shownFaces_eq_nil (filter : Filter) (brushes : BrushList)
    (h : ∀ brush ∈ brushes, ∀ face ∈ brush.faces, filter.show face = false) :
    shownFaces filter brushes = [] := by
  induction brushes with
  | nil => rfl
  | cons brush rest ih =>
    have h₁ : brush.faces.filter filter.show = [] := by
      rw [List.filter_eq_nil_iff]
      intro face hf
      simp [h brush (List.mem_cons_self _ _) face hf]
    have h₂ := ih (fun b hb => h b (List.mem_cons_of_mem _ hb))
    simp only [shownFaces] at h₂ ⊢
    simp [h₁, h₂]

theorem shownFaces_brushesOfKind_eq_nil (filter : Filter) (transparent : Bool)
    (brushes : BrushList)
    (h : ∀ brush ∈ brushes, ∀ face ∈ brush.faces, filter.show face = false) :
    shownFaces filter (brushesOfKind filter transparent brushes) = [] :=
  shownFaces_eq_nil filter _
    (fun brush hb => h brush (List.mem_of_mem_filter hb))

theorem passes_of_no_shown_face (brushes : BrushList) (filter : Filter)
    (showHiddenBrushes : Bool)
    (h : brushes = [] ∨
      (showHiddenBrushes = false ∧
        ∀ brush ∈ brushes, ∀ face ∈ brush.faces, filter.show face = false)) :
    (countVerticesPass brushes filter showHiddenBrushes).vertexCount = 0 ∧
    (collectVerticesPass brushes filter showHiddenBrushes).vertexArray = [] ∧
    (collectIndicesPass brushes filter showHiddenBrushes).m_opaqueFaceIndices.runs = [] ∧
    (collectIndicesPass brushes filter showHiddenBrushes).m_transparentFaceIndices.runs = [] ∧
    (collectIndicesPass brushes filter showHiddenBrushes).m_edgeIndices.runs = [] := by
  have hidden : ∀ brush ∈ brushes, ∀ face ∈ brush.faces,
      (FilterWrapper filter showHiddenBrushes).show face = false := by
    rcases h with h | ⟨hf, h⟩
    · intro brush hb
      rw [h] at hb
      exact absurd hb (List.not_mem_nil _)
    · intro brush hb face hface
      simpa [FilterWrapper, Filter.show, hf] using h brush hb face hface
  have h₀ := shownFaces_eq_nil _ brushes hidden
  have h₁ := shownFaces_brushesOfKind_eq_nil _ false brushes hidden
  have h₂ := shownFaces_brushesOfKind_eq_nil _ true brushes hidden
  refine ⟨?_, ?_, ?_, ?_, ?_⟩
  · simp [countVerticesPass, CountVertices.count_accept_eq, CountVertices.vertexCount,
      CountVertices.new, h₀]
  · simp [collectVerticesPass, CollectVertices.collect_accept_eq, CollectVertices.vertexArray,
      CollectVertices.new, h₀]
  · rw [collectIndicesPass_opaque_runs, h₁, List.map_nil]
  · rw [collectIndicesPass_transparent_runs, h₂, List.map_nil]
  · rw [collectIndicesPass_edge_runs, h₀, List.map_nil]

theorem BrushRenderer.render_vertexArray_of_invalid (r : BrushRenderer) (ctx : RenderContext)
    (batch : RenderBatch) (hb : r.m_brushes ≠ []) (hv : r.m_verticesValid = false) :
    (r.render ctx batch).renderer.m_vertexArray =
      (collectVerticesPass r.m_brushes r.m_filter r.m_showHiddenBrushes).vertexArray := by
  have hb' := r.isEmpty_eq_false hb
  obtain ⟨sf, se⟩ := ctx
  cases sf <;> cases se <;> cases hse : r.m_showEdges <;> cases hi : r.m_indicesValid <;>
    simp [BrushRenderer.render, hb', hv, hi, hse, BrushRenderer.validateVertices,
      BrushRenderer.validateIndices, BrushRenderer.renderFaces, collectVerticesPass,
      countVerticesPass]

theorem BrushRenderer.render_buckets_of_invalid (r : BrushRenderer) (ctx : RenderContext)
    (batch : RenderBatch) (hb : r.m_brushes ≠ []) (hi : r.m_indicesValid = false) :
    (r.render ctx batch).renderer.m_opaqueFaceRenderer.m_indexArray =
      (collectIndicesPass r.m_brushes r.m_filter r.m_showHiddenBrushes).m_opaqueFaceIndices ∧
    (r.render ctx batch).renderer.m_transparentFaceRenderer.m_indexArray =
      (collectIndicesPass r.m_brushes r.m_filter
        r.m_showHiddenBrushes).m_transparentFaceIndices ∧
    (r.render ctx batch).renderer.m_edgeRenderer.m_indexArray =
      (collectIndicesPass r.m_brushes r.m_filter r.m_showHiddenBrushes).m_edgeIndices := by
  have inv : IndicesCurrent r := fun hv => by simp [hi] at hv
  have := IndicesCurrent.render r ctx batch inv (BrushRenderer.render_valid r ctx batch hb).2
  rwa [BrushRenderer.render_collectedIndices] at this

/-- C18 as stated fails for the empty brush list: a renderer from `BrushRenderer(false)`
has show-hidden switched on, which invalidates its vertex data, is given the wedge,
rendered, and then given the empty brush list.  The next `render` compiles nothing: the
opaque bucket keeps its two polygon runs, the edge bucket its two line loops, the vertex
store its five vertices. -/
theorem C18_empty_brush_list_keeps_buffers :
    ((BrushRenderer.new false).run
        [Op.mutate (Mutator.setShowHiddenBrushes true),
          Op.mutate (Mutator.addBrushes [wedgeBrush]), Op.render ⟨true, true⟩ [],
          Op.mutate (Mutator.setBrushes [])]).m_brushes = [] ∧
    (((BrushRenderer.new false).run
        [Op.mutate (Mutator.setShowHiddenBrushes true),
          Op.mutate (Mutator.addBrushes [wedgeBrush]), Op.render ⟨true, true⟩ [],
          Op.mutate (Mutator.setBrushes [])]).render
        ⟨true, true⟩ []).validated = [] ∧
    (((BrushRenderer.new false).run
        [Op.mutate (Mutator.setShowHiddenBrushes true),
          Op.mutate (Mutator.addBrushes [wedgeBrush]), Op.render ⟨true, true⟩ [],
          Op.mutate (Mutator.setBrushes [])]).render
        ⟨true, true⟩ []).renderer.m_opaqueFaceRenderer.m_indexArray.runs.length = 2 ∧
    (((BrushRenderer.new false).run
        [Op.mutate (Mutator.setShowHiddenBrushes true),
          Op.mutate (Mutator.addBrushes [wedgeBrush]), Op.render ⟨true, true⟩ [],
          Op.mutate (Mutator.setBrushes [])]).render
        ⟨true, true⟩ []).renderer.m_edgeRenderer.m_indexArray.runs.length = 2 ∧
    (((BrushRenderer.new false).run
        [Op.mutate (Mutator.setShowHiddenBrushes true),
          Op.mutate (Mutator.addBrushes [wedgeBrush]), Op.render ⟨true, true⟩ [],
          Op.mutate (Mutator.setBrushes [])]).render
        ⟨true, true⟩ []).renderer.m_vertexArray.length = 5 := by
  decide

/-- C18, amended: over the empty brush list under any filter, and over any brush list whose
faces the filter all hides while show-hidden is off, the vertex count pass counts zero
vertices, the vertex collect pass yields the empty vertex store and the index collect pass
yields an empty opaque, transparent and edge bucket, by the same passes that compile every
other scene.  `render` runs these passes on a non-empty brush set only: on such an
all-hidden scene a `render` that finds the index data invalid leaves the three buckets
empty, and one that finds the vertex data invalid leaves a zero-length vertex store; on an
empty brush set `render` compiles nothing and returns the renderer as it was. -/
theorem C18_hidden_scenes_compile_empty (r : BrushRenderer) (ctx : RenderContext)
    (batch : RenderBatch)
    (h : r.m_brushes = [] ∨
      (r.m_showHiddenBrushes = false ∧
        ∀ brush ∈ r.m_brushes, ∀ face ∈ brush.faces, r.m_filter.show face = false)) :
    (countVerticesPass r.m_brushes r.m_filter r.m_showHiddenBrushes).vertexCount = 0 ∧
    (collectVerticesPass r.m_brushes r.m_filter r.m_showHiddenBrushes).vertexArray = [] ∧
    (collectIndicesPass r.m_brushes r.m_filter r.m_showHiddenBrushes).m_opaqueFaceIndices.runs
      = [] ∧
    (collectIndicesPass r.m_brushes r.m_filter
      r.m_showHiddenBrushes).m_transparentFaceIndices.runs = [] ∧
    (collectIndicesPass r.m_brushes r.m_filter r.m_showHiddenBrushes).m_edgeIndices.runs = [] ∧
    (r.m_brushes ≠ [] → r.m_indicesValid = false →
      (r.render ctx batch).renderer.m_opaqueFaceRenderer.m_indexArray.runs = [] ∧
      (r.render ctx batch).renderer.m_transparentFaceRenderer.m_indexArray.runs = [] ∧
      (r.render ctx batch).renderer.m_edgeRenderer.m_indexArray.runs = []) ∧
    (r.m_brushes ≠ [] → r.m_verticesValid = false →
      (r.render ctx batch).renderer.m_vertexArray = [] ∧
      (r.render ctx batch).renderer.m_vertexArray.length = 0) ∧
    (r.m_brushes = [] →
      (r.render ctx batch).renderer = r ∧ (r.render ctx batch).validated = []) := by
  obtain ⟨h₁, h₂, h₃, h₄, h₅⟩ :=
    passes_of_no_shown_face r.m_brushes r.m_filter r.m_showHiddenBrushes h
  refine ⟨h₁, h₂, h₃, h₄, h₅, ?_, ?_, ?_⟩
  · intro hb hi
    obtain ⟨b₁, b₂, b₃⟩ := r.render_buckets_of_invalid ctx batch hb hi
    rw [b₁, b₂, b₃]
    exact ⟨h₃, h₄, h₅⟩
  · intro hb hv
    rw [r.render_vertexArray_of_invalid ctx batch hb hv, h₂]
    exact ⟨rfl, rfl⟩
  · intro hb
    rw [BrushRenderer.render_empty r ctx batch hb]
    exact ⟨rfl, rfl⟩

/-- C18, amended, at a concrete all-hidden scene: a renderer over a filter that hides
material 7 is cleared, which invalidates vertex and index data, and given two cubes of
material 7; `render` revalidates both and leaves an empty store and empty buckets. -/
theorem C18_hidden_scenes_compile_empty_witness :
    ((BrushRenderer.newWithFilter (fixtureFilter 7 20)).run
        [Op.mutate Mutator.clear,
          Op.mutate (Mutator.setBrushes [cubeBrush 10 7 0, cubeBrush 20 7 24])]).m_brushes
      ≠ [] ∧
    (((BrushRenderer.newWithFilter (fixtureFilter 7 20)).run
        [Op.mutate Mutator.clear,
          Op.mutate (Mutator.setBrushes [cubeBrush 10 7 0, cubeBrush 20 7 24])]).render
        ⟨true, true⟩ []).validated = [Validation.vertices, Validation.indices] ∧
    (((BrushRenderer.newWithFilter (fixtureFilter 7 20)).run
        [Op.mutate Mutator.clear,
          Op.mutate (Mutator.setBrushes [cubeBrush 10 7 0, cubeBrush 20 7 24])]).render
        ⟨true, true⟩ []).renderer.m_vertexArray = [] ∧
    (((BrushRenderer.newWithFilter (fixtureFilter 7 20)).run
        [Op.mutate Mutator.clear,
          Op.mutate (Mutator.setBrushes [cubeBrush 10 7 0, cubeBrush 20 7 24])]).render
        ⟨true, true⟩ []).renderer.m_edgeRenderer.m_indexArray.runs = [] :=
  have h := C18_hidden_scenes_compile_empty
    ((BrushRenderer.newWithFilter (fixtureFilter 7 20)).run
      [Op.mutate Mutator.clear,
        Op.mutate (Mutator.setBrushes [cubeBrush 10 7 0, cubeBrush 20 7 24])])
    ⟨true, true⟩ [] (Or.inr ⟨by decide, by decide⟩)
  ⟨by decide, by decide, (h.2.2.2.2.2.2.1 (by decide) (by decide)).1,
    (h.2.2.2.2.2.1 (by decide) (by decide)).2.2⟩

/-! ## Draw submission -/

/-- C19: on a non-empty brush set `render` appends to the render batch, in this order:
the opaque face batch and then the transparent face batch, exactly when the context shows
faces; then, exactly when the context shows edges and the renderer's show-edges flag is
set, the occluded-edge batch in the occluded-edge colour, only when show-occluded-edges is
set, and after it the normal edge batch in the edge colour. -/
theorem C19_render_batches (r : BrushRenderer) (ctx : RenderContext) (batch : RenderBatch)
    (h : r.m_brushes ≠ []) :
    (r.render ctx batch).renderBatch =
      batch ++
        (if ctx.showFaces then
          [Renderable.faces (r.render ctx batch).renderer.m_opaqueFaceRenderer,
            Renderable.faces (r.render ctx batch).renderer.m_transparentFaceRenderer]
        else []) ++
        (if ctx.showEdges && r.m_showEdges then
          (if r.m_showOccludedEdges then
            [Renderable.edges
              ⟨(r.render ctx batch).renderer.m_edgeRenderer, true, r.m_occludedEdgeColor⟩]
          else []) ++
          [Renderable.edges ⟨(r.render ctx batch).renderer.m_edgeRenderer, false, r.m_edgeColor⟩]
        else []) := by
  have hb := r.isEmpty_eq_false h
  obtain ⟨sf, se⟩ := ctx
  cases sf <;> cases se <;> cases hse : r.m_showEdges <;> cases hso : r.m_showOccludedEdges <;>
    cases hv : r.m_verticesValid <;> cases hi : r.m_indicesValid <;>
    simp [BrushRenderer.render, hb, hse, hso, hv, hi, BrushRenderer.validateVertices,
      BrushRenderer.validateIndices, BrushRenderer.renderFaces, BrushRenderer.renderEdges,
      FaceRenderer.render, RenderBatch.addOneShot, RenderEdges.new, RenderEdges.setColor,
      RenderEdges.setRenderOccluded]

/-- C19 at a concrete renderer: the wedge, occluded edges on, faces and edges shown. -/
theorem C19_render_batches_witness :
    fixtureRenderer.m_brushes ≠ [] ∧
    (fixtureRenderer.render ⟨true, true⟩ []).renderBatch =
      [] ++
        (if (RenderContext.mk true true).showFaces then
          [Renderable.faces (fixtureRenderer.render ⟨true, true⟩ []).renderer.m_opaqueFaceRenderer,
            Renderable.faces
              (fixtureRenderer.render ⟨true, true⟩ []).renderer.m_transparentFaceRenderer]
        else []) ++
        (if (RenderContext.mk true true).showEdges && fixtureRenderer.m_showEdges then
          (if fixtureRenderer.m_showOccludedEdges then
            [Renderable.edges
              ⟨(fixtureRenderer.render ⟨true, true⟩ []).renderer.m_edgeRenderer, true,
                fixtureRenderer.m_occludedEdgeColor⟩]
          else []) ++
          [Renderable.edges
            ⟨(fixtureRenderer.render ⟨true, true⟩ []).renderer.m_edgeRenderer, false,
              fixtureRenderer.m_edgeColor⟩]
        else []) :=
  ⟨by decide, C19_render_batches fixtureRenderer ⟨true, true⟩ [] (by decide)⟩

/-! ## Traversal order of the vertex store -/

theorem flatten_map_shownFaces (filter : Filter) (brushes : BrushList) :
    ((shownFaces filter brushes).map BrushFace.cachedVertices).flatten =
      concatShownVertices filter brushes := by
  induction brushes with
  | nil => rfl
  | cons brush rest ih =>
    simp only [shownFaces, concatShownVertices, List.map_cons, List.flatten_cons,
      List.map_append, List.flatten_append, List.flatMap_cons] at ih ⊢
    rw [ih]
    simp [List.flatMap, Filter.show]
    rfl

/-- C20: the vertex sequence the vertex collect pass produces is the concatenation, over
the brushes in list order and over each brush's faces in face-list order, of the vertices
of exactly the faces the filter shows: whatever the reserved capacity, and in particular
for the pass `validateVertices` runs under the wrapped filter. -/
theorem C20_collected_vertices_in_traversal_order (brushes : BrushList) (filter : Filter)
    (faceVertexCount : Nat) (showHiddenBrushes : Bool) :
    (Node.accept brushes CollectVertices.doVisit
      (CollectVertices.new filter faceVertexCount)).vertexArray =
        concatShownVertices filter brushes ∧
    (collectVerticesPass brushes filter showHiddenBrushes).vertexArray =
      concatShownVertices (FilterWrapper filter showHiddenBrushes) brushes := by
  constructor
  · rw [CollectVertices.collect_accept_eq, ← flatten_map_shownFaces]
    simp [CollectVertices.vertexArray, CollectVertices.new]
  · rw [collectVerticesPass, CollectVertices.collect_accept_eq, ← flatten_map_shownFaces]
    simp [CollectVertices.vertexArray, CollectVertices.new]

/-! ## Both collect passes walk the same faces -/

theorem CollectVertices.collectFaceVerticesLogged_eq (s : CollectVertices × List BrushFace)
    (brush : Brush) :
    CollectVertices.collectFaceVerticesLogged s brush =
      (s.1.collectFaceVertices brush, s.2 ++ brush.faces.filter s.1.m_filter.show) := by
  unfold CollectVertices.collectFaceVerticesLogged CollectVertices.collectFaceVertices
  generalize brush.faces = faces
  induction faces generalizing s with
  | nil => simp
  | cons face rest ih =>
    rw [List.foldl_cons, List.foldl_cons, ih]
    by_cases h : s.1.m_filter.show face <;> simp [h, List.filter_cons]

theorem CollectVertices.accept_logged_eq (s : CollectVertices × List BrushFace)
    (brushes : BrushList) :
    Node.accept brushes CollectVertices.collectFaceVerticesLogged s =
      (Node.accept brushes CollectVertices.doVisit s.1,
        s.2 ++ shownFaces s.1.m_filter brushes) := by
  unfold Node.accept
  induction brushes generalizing s with
  | nil => simp [shownFaces]
  | cons brush rest ih =>
    rw [List.foldl_cons, List.foldl_cons, ih, CollectVertices.collectFaceVerticesLogged_eq]
    simp [CollectVertices.doVisit, CollectVertices.collectFaceVertices_eq, shownFaces]

/-- C21: for every brush list, filter and show-hidden flag, the faces the index collect
pass emits into the edge bucket, one line loop each, are in the same order the faces
whose vertices the vertex collect pass appends; both are the shown faces in traversal
order, and the vertex store is the concatenation of their vertices in that order. -/
theorem C21_collect_passes_same_faces (brushes : BrushList) (filter : Filter)
    (showHiddenBrushes : Bool) :
    (collectVerticesPassLogged brushes filter showHiddenBrushes).1 =
      collectVerticesPass brushes filter showHiddenBrushes ∧
    (collectIndicesPass brushes filter showHiddenBrushes).m_edgeIndices.faces =
      (collectVerticesPassLogged brushes filter showHiddenBrushes).2 ∧
    (collectIndicesPass brushes filter showHiddenBrushes).m_edgeIndices.faces =
      shownFaces (FilterWrapper filter showHiddenBrushes) brushes ∧
    (∀ run ∈ (collectIndicesPass brushes filter showHiddenBrushes).m_edgeIndices.runs,
      run.primType = PrimType.PT_LineLoops) ∧
    (collectVerticesPass brushes filter showHiddenBrushes).vertexArray =
      ((collectIndicesPass brushes filter showHiddenBrushes).m_edgeIndices.faces.map
        BrushFace.cachedVertices).flatten := by
  have hfaces : (collectIndicesPass brushes filter showHiddenBrushes).m_edgeIndices.faces =
      shownFaces (FilterWrapper filter showHiddenBrushes) brushes := by
    rw [IndexArray.faces, collectIndicesPass_edge_runs, List.map_map]
    simp [Function.comp_def, BrushFace.lineLoopRun]
  have agree := IndexAgree.accept brushes _ _
    (IndexAgree.of_new (FilterWrapper filter showHiddenBrushes)
      (countIndicesPass brushes filter showHiddenBrushes))
  refine ⟨?_, ?_, hfaces, agree.2.2.2.2.2.2, ?_⟩
  · rw [collectVerticesPassLogged, CollectVertices.accept_logged_eq]
    rfl
  · rw [hfaces, collectVerticesPassLogged, CollectVertices.accept_logged_eq]
    simp [CollectVertices.new]
  · rw [hfaces, collectVerticesPass, CollectVertices.collect_accept_eq]
    simp [CollectVertices.vertexArray, CollectVertices.new]

/-! ## Rendering an empty brush set -/

/-- C22: on a renderer whose brush set is empty `render` returns the renderer and the
render batch it was given and runs no revalidation: both validity flags, the vertex store
and the three index buckets are as before the call. -/
theorem C22_render_on_empty_brush_set (r : BrushRenderer) (ctx : RenderContext)
    (batch : RenderBatch) (h : r.m_brushes = []) :
    (r.render ctx batch).renderer = r ∧
    (r.render ctx batch).renderBatch = batch ∧
    (r.render ctx batch).validated = [] ∧
    (r.render ctx batch).renderer.m_verticesValid = r.m_verticesValid ∧
    (r.render ctx batch).renderer.m_indicesValid = r.m_indicesValid ∧
    (r.render ctx batch).renderer.m_vertexArray = r.m_vertexArray ∧
    (r.render ctx batch).renderer.m_opaqueFaceRenderer.m_indexArray =
      r.m_opaqueFaceRenderer.m_indexArray ∧
    (r.render ctx batch).renderer.m_transparentFaceRenderer.m_indexArray =
      r.m_transparentFaceRenderer.m_indexArray ∧
    (r.render ctx batch).renderer.m_edgeRenderer.m_indexArray = r.m_edgeRenderer.m_indexArray := by
  rw [BrushRenderer.render_empty r ctx batch h]
  exact ⟨rfl, rfl, rfl, rfl, rfl, rfl, rfl, rfl, rfl⟩

/-- C22 at a concrete renderer: its brush set was emptied by `setBrushes` after a render,
so the index data is invalid and the edge bucket still holds two line loops; `render`
leaves all of it as it is and submits nothing. -/
theorem C22_render_on_empty_brush_set_witness :
    staleRenderer.m_brushes = [] ∧
    staleRenderer.m_indicesValid = false ∧
    staleRenderer.m_edgeRenderer.m_indexArray.runs.length = 2 ∧
    (staleRenderer.render ⟨true, true⟩ []).renderer = staleRenderer ∧
    (staleRenderer.render ⟨true, true⟩ []).renderBatch = [] ∧
    (staleRenderer.render ⟨true, true⟩ []).validated = [] :=
  have h := C22_render_on_empty_brush_set staleRenderer ⟨true, true⟩ [] (by decide)
  ⟨by decide, by decide, by decide, h.1, h.2.1, h.2.2.1⟩

/-! ## Every shown face is counted once -/

theorem length_filter_polygonEntry (faces : List BrushFace) (material : Texture) :
    ((faces.map BrushFace.polygonEntry).filter (fun e => e.1 = material)).length =
      (faces.map BrushFace.texture).count material := by
  induction faces with
  | nil => rfl
  | cons face rest ih =>
    by_cases h : face.texture = material <;>
      simp [List.filter_cons, List.count_cons, BrushFace.polygonEntry, h, ih]

theorem sum_count_eq_length (l : List Texture) (S : Finset Texture) (h : ∀ t ∈ l, t ∈ S) :
    S.sum (fun t => l.count t) = l.length := by
  induction l with
  | nil => simp
  | cons a rest ih =>
    have ha : a ∈ S := h a (List.mem_cons_self _ _)
    have hrest := ih (fun t ht => h t (List.mem_cons_of_mem _ ht))
    simp only [List.count_cons, Finset.sum_add_distrib, hrest, List.length_cons]
    congr 1
    simp [Finset.sum_ite_eq, ha]

theorem length_shownFaces_split (filter : Filter) (brushes : BrushList) :
    (shownFaces filter (brushesOfKind filter false brushes)).length +
        (shownFaces filter (brushesOfKind filter true brushes)).length =
      (shownFaces filter brushes).length := by
  induction brushes with
  | nil => rfl
  | cons brush rest ih =>
    simp only [shownFaces, brushesOfKind] at ih ⊢
    by_cases ht : filter.transparent brush = true
    · simp [List.filter_cons, ht] at ih ⊢
      omega
    · simp [List.filter_cons, ht] at ih ⊢
      omega

theorem texture_mem_of_shownFaces (filter : Filter) (brushes : BrushList)
    (S : Finset Texture)
    (hS : ∀ brush ∈ brushes, ∀ face ∈ brush.faces, face.texture ∈ S) :
    ∀ t ∈ (shownFaces filter brushes).map BrushFace.texture, t ∈ S := by
  intro t ht
  obtain ⟨face, hface, rfl⟩ := List.mem_map.mp ht
  obtain ⟨brush, hb, hf, _⟩ := mem_shownFaces.mp hface
  exact hS brush hb face hf

theorem countIndicesPass_totals (brushes : BrushList) (filter : Filter)
    (showHiddenBrushes : Bool) (S : Finset Texture)
    (hS : ∀ brush ∈ brushes, ∀ face ∈ brush.faces, face.texture ∈ S) :
    (countIndicesPass brushes filter showHiddenBrushes).m_opaqueIndexSize.total S =
      (shownFaces (FilterWrapper filter showHiddenBrushes)
        (brushesOfKind (FilterWrapper filter showHiddenBrushes) false brushes)).length ∧
    (countIndicesPass brushes filter showHiddenBrushes).m_transparentIndexSize.total S =
      (shownFaces (FilterWrapper filter showHiddenBrushes)
        (brushesOfKind (FilterWrapper filter showHiddenBrushes) true brushes)).length ∧
    (countIndicesPass brushes filter showHiddenBrushes).m_edgeIndexSize PrimType.PT_LineLoops =
      (shownFaces (FilterWrapper filter showHiddenBrushes) brushes).length := by
  have agree := IndexAgree.accept brushes _ _
    (IndexAgree.of_new (FilterWrapper filter showHiddenBrushes)
      (countIndicesPass brushes filter showHiddenBrushes))
  obtain ⟨_, ho, ht, he, _, _, _⟩ := agree
  have ho' : ∀ t, (countIndicesPass brushes filter showHiddenBrushes).m_opaqueIndexSize t
      PrimType.PT_Polygons =
      ((collectIndicesPass brushes filter showHiddenBrushes).m_opaqueFaceIndices.runsOf
        t).length := ho
  have ht' : ∀ t, (countIndicesPass brushes filter showHiddenBrushes).m_transparentIndexSize t
      PrimType.PT_Polygons =
      ((collectIndicesPass brushes filter showHiddenBrushes).m_transparentFaceIndices.runsOf
        t).length := ht
  have he' : (countIndicesPass brushes filter showHiddenBrushes).m_edgeIndexSize
      PrimType.PT_LineLoops =
      (collectIndicesPass brushes filter showHiddenBrushes).m_edgeIndices.runs.length := he
  refine ⟨?_, ?_, ?_⟩
  · unfold TexturedIndexArray.Size.total
    simp only [ho', TexturedIndexArray.runsOf, collectIndicesPass_opaque_runs, List.length_map,
      length_filter_polygonEntry]
    rw [sum_count_eq_length, List.length_map]
    exact texture_mem_of_shownFaces _ _ S
      (fun brush hb => hS brush (List.mem_of_mem_filter hb))
  · unfold TexturedIndexArray.Size.total
    simp only [ht', TexturedIndexArray.runsOf, collectIndicesPass_transparent_runs,
      List.length_map, length_filter_polygonEntry]
    rw [sum_count_eq_length, List.length_map]
    exact texture_mem_of_shownFaces _ _ S
      (fun brush hb => hS brush (List.mem_of_mem_filter hb))
  · rw [he', collectIndicesPass_edge_runs, List.length_map]

/-- C23: the count pass counts each shown face in exactly one of the two face accumulators
and once in the edge accumulator.  Over any set of materials that holds the material of
every face, the total of the opaque polygon sizes is the number of shown faces on
non-transparent brushes, the total of the transparent polygon sizes the number of shown
faces on transparent brushes, and their sum is the line-loop size of the edge accumulator,
which is the number of faces the filter shows. -/
theorem C23_each_shown_face_counted_once (brushes : BrushList) (filter : Filter)
    (showHiddenBrushes : Bool) (materials : Finset Texture)
    (h : ∀ brush ∈ brushes, ∀ face ∈ brush.faces, face.texture ∈ materials) :
    (countIndicesPass brushes filter showHiddenBrushes).m_opaqueIndexSize.total materials +
        (countIndicesPass brushes filter showHiddenBrushes).m_transparentIndexSize.total
          materials =
      (countIndicesPass brushes filter showHiddenBrushes).m_edgeIndexSize
        PrimType.PT_LineLoops ∧
    (countIndicesPass brushes filter showHiddenBrushes).m_edgeIndexSize PrimType.PT_LineLoops =
      (shownFaces (FilterWrapper filter showHiddenBrushes) brushes).length ∧
    (countIndicesPass brushes filter showHiddenBrushes).m_opaqueIndexSize.total materials =
      (shownFaces (FilterWrapper filter showHiddenBrushes)
        (brushesOfKind (FilterWrapper filter showHiddenBrushes) false brushes)).length ∧
    (countIndicesPass brushes filter showHiddenBrushes).m_transparentIndexSize.total materials =
      (shownFaces (FilterWrapper filter showHiddenBrushes)
        (brushesOfKind (FilterWrapper filter showHiddenBrushes) true brushes)).length := by
  obtain ⟨h₁, h₂, h₃⟩ := countIndicesPass_totals brushes filter showHiddenBrushes materials h
  refine ⟨?_, h₃, h₁, h₂⟩
  rw [h₁, h₂, h₃]
  exact length_shownFaces_split _ brushes

/-- C23 at a concrete scene: a cube of material 7 and the wedge (its material-9 face
hidden) are not transparent, a cube of material 8 is; the materials are 7, 8 and 9. -/
theorem C23_each_shown_face_counted_once_witness :
    (countIndicesPass [cubeBrush 10 7 0, wedgeBrush, cubeBrush 20 8 24] (fixtureFilter 9 20)
        false).m_opaqueIndexSize.total {7, 8, 9} +
      (countIndicesPass [cubeBrush 10 7 0, wedgeBrush, cubeBrush 20 8 24] (fixtureFilter 9 20)
        false).m_transparentIndexSize.total {7, 8, 9} =
      (countIndicesPass [cubeBrush 10 7 0, wedgeBrush, cubeBrush 20 8 24] (fixtureFilter 9 20)
        false).m_edgeIndexSize PrimType.PT_LineLoops ∧
    (countIndicesPass [cubeBrush 10 7 0, wedgeBrush, cubeBrush 20 8 24] (fixtureFilter 9 20)
        false).m_edgeIndexSize PrimType.PT_LineLoops =
      (shownFaces (FilterWrapper (fixtureFilter 9 20) false)
        [cubeBrush 10 7 0, wedgeBrush, cubeBrush 20 8 24]).length :=
  have h := C23_each_shown_face_counted_once [cubeBrush 10 7 0, wedgeBrush, cubeBrush 20 8 24]
    (fixtureFilter 9 20) false {7, 8, 9} (by decide)
  ⟨h.1, h.2.1⟩

/-! ## The wrapper with show-hidden off, and the default filter of the renderer -/

/-- C24: with the show-hidden flag false the filter wrapper answers `show(face)`,
`show(edge)` and `transparent(brush)` exactly as the wrapped filter does, for every face,
edge and brush; as a filter it is the wrapped filter. -/
theorem C24_filter_wrapper_off_is_wrapped (filter : Filter) (face : BrushFace)
    (edge : BrushEdge) (brush : Brush) :
    (FilterWrapper filter false).show face = filter.show face ∧
    (FilterWrapper filter false).showEdge edge = filter.showEdge edge ∧
    (FilterWrapper filter false).transparent brush = filter.transparent brush ∧
    FilterWrapper filter false = filter := by
  refine ⟨?_, ?_, ?_, ?_⟩
  · simp [FilterWrapper, Filter.show]
  · simp [FilterWrapper, Filter.showEdge]
  · simp [FilterWrapper, Filter.transparent]
  · cases filter
    simp [FilterWrapper, Filter.show, Filter.showEdge, Filter.transparent]

theorem shownFaces_of_show_all (filter : Filter) (brushes : BrushList)
    (h : ∀ face, filter.show face = true) : shownFaces filter brushes = allFaces brushes := by
  have hf : ∀ faces : List BrushFace, faces.filter filter.show = faces := by
    intro faces
    rw [List.filter_eq_self]
    intro face _
    exact h face
  simp [shownFaces, allFaces, List.flatMap, hf]

theorem brushesOfKind_const (filter : Filter) (transparent kind : Bool) (brushes : BrushList)
    (h : ∀ brush, filter.transparent brush = transparent) :
    brushesOfKind filter kind brushes = if transparent = kind then brushes else [] := by
  unfold brushesOfKind
  by_cases e : transparent = kind
  · rw [if_pos e, List.filter_eq_self]
    intro brush _
    simp [h brush, e]
  · rw [if_neg e, List.filter_eq_nil_iff]
    intro brush _
    simp [h brush, e]

/-- C25: a renderer constructed by `BrushRenderer(transparent)` keeps its `NoFilter`
through every public operation; that filter, wrapped or not, shows every face, and
`validateIndices` files the polygon runs of all faces of all brushes in the transparent
bucket and none in the opaque bucket when `transparent` is true, and all in the opaque
bucket and none in the transparent bucket when it is false. -/
theorem C25_default_filter_buckets (transparent : Bool) (ops : List Op) (face : BrushFace) :
    ((BrushRenderer.new transparent).run ops).m_filter = NoFilter transparent ∧
    ((BrushRenderer.new transparent).run ops).m_filter.show face = true ∧
    (FilterWrapper ((BrushRenderer.new transparent).run ops).m_filter
      ((BrushRenderer.new transparent).run ops).m_showHiddenBrushes).show face = true ∧
    ((BrushRenderer.new transparent).run ops).validateIndices.m_transparentFaceRenderer.m_indexArray.runs =
      (if transparent then
        (allFaces ((BrushRenderer.new transparent).run ops).m_brushes).map
          BrushFace.polygonEntry
      else []) ∧
    ((BrushRenderer.new transparent).run ops).validateIndices.m_opaqueFaceRenderer.m_indexArray.runs =
      (if transparent then []
      else
        (allFaces ((BrushRenderer.new transparent).run ops).m_brushes).map
          BrushFace.polygonEntry) := by
  have hf : ((BrushRenderer.new transparent).run ops).m_filter = NoFilter transparent :=
    BrushRenderer.run_filter ops _
  generalize (BrushRenderer.new transparent).run ops = r at hf ⊢
  have hshow : ∀ f, (FilterWrapper r.m_filter r.m_showHiddenBrushes).show f = true := by
    intro f
    simp [hf, FilterWrapper, Filter.show, NoFilter]
  have htr : ∀ brush,
      (FilterWrapper r.m_filter r.m_showHiddenBrushes).transparent brush = transparent := by
    intro brush
    simp [hf, FilterWrapper, Filter.transparent, NoFilter]
  have ht : r.validateIndices.m_transparentFaceRenderer.m_indexArray.runs =
      (collectIndicesPass r.m_brushes r.m_filter r.m_showHiddenBrushes).m_transparentFaceIndices.runs :=
    rfl
  have ho : r.validateIndices.m_opaqueFaceRenderer.m_indexArray.runs =
      (collectIndicesPass r.m_brushes r.m_filter r.m_showHiddenBrushes).m_opaqueFaceIndices.runs :=
    rfl
  refine ⟨hf, ?_, hshow face, ?_, ?_⟩
  · simp [hf, Filter.show, NoFilter]
  · rw [ht, collectIndicesPass_transparent_runs, brushesOfKind_const _ transparent true _ htr]
    cases transparent
    · simp [shownFaces]
    · simp [shownFaces_of_show_all _ _ hshow]
  · rw [ho, collectIndicesPass_opaque_runs, brushesOfKind_const _ transparent false _ htr]
    cases transparent
    · simp [shownFaces_of_show_all _ _ hshow]
    · simp [shownFaces]

/-! ## The brush list -/

/-- C26: `addBrushes(B)` leaves the brush list equal to the old list followed by `B`, so
`addBrushes(A)` then `addBrushes(B)` gives the same renderer as `addBrushes(A ++ B)`;
`setBrushes(B)` leaves the brush list equal to `B`. -/
theorem C26_addBrushes_appends_setBrushes_replaces (r : BrushRenderer) (A B : BrushList) :
    (r.addBrushes B).m_brushes = r.m_brushes ++ B ∧
    ((r.addBrushes A).addBrushes B).m_brushes = (r.addBrushes (A ++ B)).m_brushes ∧
    (r.addBrushes A).addBrushes B = r.addBrushes (A ++ B) ∧
    (r.setBrushes B).m_brushes = B := by
  refine ⟨rfl, ?_, ?_, rfl⟩
  · simp [BrushRenderer.addBrushes, BrushRenderer.invalidateIndices]
  · simp [BrushRenderer.addBrushes, BrushRenderer.invalidateIndices]

end TrenchBroom
